import Mathlib

/-!
Shallow embedding of the power-quality engine of the pq_app repository.

Modelling conventions:
- Python floats are modelled by exact real numbers; float literals of the source
  become the corresponding rational literals of Lean.
- Python dicts mapping harmonic order to a percentage are modelled as association
  lists of type List (Int x Real) in insertion order; dict keys are unique in the
  source, list entries play that role here.
- Functions that raise ValueError / KeyError are modelled with Except String.
- The builtin round and the numpy clip are modelled by explicit helpers below.
- math.sqrt is Real.sqrt, the float power operator on a positive base is Real.rpow.
-/

namespace PQ

/-- Source: numpy.clip, used by the spectrum model: clamp a value into an interval. -/
noncomputable def np_clip (x lo hi : ℝ) : ℝ := min (max x lo) hi

/-- Source: the builtin round(x, n): round to n decimal digits. The builtin applies
round-half-to-even on binary floats; on exact reals we use the standard round,
which can differ only when the scaled value is exactly half-way. No property
proved below depends on the rounded presentation fields. -/
noncomputable def py_round (x : ℝ) (ndigits : ℕ) : ℝ :=
  (round (x * (10 : ℝ) ^ ndigits) : ℤ) / (10 : ℝ) ^ ndigits

/-- Source: the builtin int() on a float truncates toward zero. On an infinite
float the builtin raises OverflowError; the total model below is only applied
to finite values except through row_label, see there. -/
noncomputable def py_int (x : ℝ) : ℤ := if x < 0 then ⌈x⌉ else ⌊x⌋

namespace Ieee519

/-- Source: pq_engine/analysis/ieee519.py, _TABLE2_ROWS.
Each row is (min_exclusive, max_inclusive, limits_by_band, TDD_limit); the float
infinities of the source are modelled by none in the bound position (the first
lower bound is minus infinity, the last upper bound is plus infinity). -/
noncomputable def _TABLE2_ROWS : List (Option ℝ × Option ℝ × List ℝ × ℝ) :=
  [ (none,        some 20.0,   [4.0, 2.0, 1.5, 0.6, 0.3],   5.0),
    (some 20.0,   some 50.0,   [7.0, 3.5, 2.5, 1.0, 0.5],   8.0),
    (some 50.0,   some 100.0,  [10.0, 4.5, 4.0, 1.5, 0.7],  12.0),
    (some 100.0,  some 1000.0, [12.0, 5.5, 5.0, 2.0, 1.0],  15.0),
    (some 1000.0, none,        [15.0, 7.0, 6.0, 2.5, 1.4],  20.0) ]

/-- Source: ieee519.py, _band_index: map harmonic order to Table-2 band index,
none if outside the evaluation range (h < 2 or h > 50). -/
def _band_index (h : ℤ) : Option (Fin 5) :=
  if h < 2 ∨ h > 50 then none
  else if 2 ≤ h ∧ h < 11 then some 0
  else if 11 ≤ h ∧ h < 17 then some 1
  else if 17 ≤ h ∧ h < 23 then some 2
  else if 23 ≤ h ∧ h < 35 then some 3
  else some 4

/-- Source: ieee519.py, _select_row loop condition
(isc_over_il > lo) and (isc_over_il <= hi), where an absent bound (an infinite
float in the source) is always satisfied by a finite ratio. -/
noncomputable def _row_matches (r : ℝ) (row : Option ℝ × Option ℝ × List ℝ × ℝ) : Bool :=
  (match row.1 with
   | none => true
   | some lo => decide (lo < r)) &&
  (match row.2.1 with
   | none => true
   | some hi => decide (r ≤ hi))

/-- Source: ieee519.py, the row-label f-string of _select_row. The lower bound
is guarded (minus infinity prints as the sign <) but the upper bound is not:
the int() builtin raises OverflowError on an infinite float, so building the
label of the last row (infinite upper bound) raises instead of returning. -/
noncomputable def _row_label (lo hi : Option ℝ) : Except String String :=
  match hi with
  | none => .error ("OverflowError: cannot convert float infinity to integer")
  | some b =>
    .ok ((match lo with
          | none => "<"
          | some a => toString (py_int a)) ++ "–" ++ toString (py_int b))

/-- Source: ieee519.py, _select_row scanning loop over _TABLE2_ROWS: on the
matching row, build the label (which can raise, see _row_label) and return the
row data with it; none when no row matched. -/
noncomputable def _scan_rows (r : ℝ) :
    List (Option ℝ × Option ℝ × List ℝ × ℝ) → Option (Except String (List ℝ × ℝ × String))
  | [] => none
  | row :: rest =>
    if _row_matches r row then
      some (match _row_label row.1 row.2.1 with
        | .error e => .error e
        | .ok label => .ok (row.2.2.1, row.2.2.2, label))
    else _scan_rows r rest

/-- Source: ieee519.py, _select_row: returns (limits_by_band, tdd_limit, label)
for the matching row, or the OverflowError raised while formatting the label of
the last row (any ratio above 1000). The fallback branch (unreachable, the
bands cover every real) returns the data of the last row with the label >1000. -/
noncomputable def _select_row (isc_over_il : ℝ) : Except String (List ℝ × ℝ × String) :=
  match _scan_rows isc_over_il _TABLE2_ROWS with
  | some res => res
  | none =>
    let last := _TABLE2_ROWS.getD (_TABLE2_ROWS.length - 1) (none, none, [], 0)
    .ok (last.2.2.1, last.2.2.2, ">1000")

/-- Source: ieee519.py, dataclass HarmonicLimitCheck. -/
structure HarmonicLimitCheck where
  h : ℤ
  ih_percent_of_il : ℝ
  limit_percent_of_il : ℝ
  pass_limit : Bool
  band : String
  note : String

/-- Source: ieee519.py, dataclass IEEE519CurrentReport. -/
structure IEEE519CurrentReport where
  volt_class : String
  isc_a : ℝ
  il_a : ℝ
  isc_over_il : ℝ
  category_label : String
  tdd_percent : ℝ
  tdd_limit_percent : ℝ
  tdd_pass : Bool
  checks : List HarmonicLimitCheck
  worst_violations : List HarmonicLimitCheck
  risk_level : String
  interpretation : List String

/-- Source: ieee519.py, the band label list inside the evaluation loop. -/
def _BAND_NAMES : List String := ["2–10", "11–16", "17–22", "23–34", "35–50"]

/-- Source: ieee519.py, evaluate_ieee519_current_limits main loop, the part that
builds one HarmonicLimitCheck per in-range spectrum entry (entries whose band
index is none are skipped by the continue). The even-harmonic note of the source
interpolates the factor with float formatting, which is not modelled; the text
of the default factor is used. -/
noncomputable def _build_checks (limits_by_band : List ℝ) (even_harmonic_factor : ℝ) :
    List (ℤ × ℝ) → List HarmonicLimitCheck
  | [] => []
  | (h, pct) :: rest =>
    match _band_index h with
    | none => _build_checks limits_by_band even_harmonic_factor rest
    | some b =>
      let ih_pct_il : ℝ := pct
      let band_name := _BAND_NAMES.getD b ""
      let limit0 := limits_by_band.getD b 0
      let limit := if h % 2 = 0 then limit0 * even_harmonic_factor else limit0
      let note := if h % 2 = 0 then ("even harmonic limit = 25% of odd limit") else ("")
      { h := h
        ih_percent_of_il := ih_pct_il
        limit_percent_of_il := limit
        pass_limit := decide (ih_pct_il ≤ limit + 1e-12)
        band := band_name
        note := note } :: _build_checks limits_by_band even_harmonic_factor rest

/-- Source: ieee519.py, evaluate_ieee519_current_limits main loop, the running
sum of (ih_pct_il / 100)^2 over the entries with an in-range band index. -/
noncomputable def _sum_sq : List (ℤ × ℝ) → ℝ
  | [] => 0
  | (h, pct) :: rest =>
    (if (_band_index h).isSome then (pct / 100.0) ^ 2 else 0) + _sum_sq rest

/-- Overage of a violation, the sort key of the worst-violations ranking. -/
noncomputable def _over (c : HarmonicLimitCheck) : ℝ :=
  c.ih_percent_of_il - c.limit_percent_of_il

/-- Source: ieee519.py, the interpretation lines of the report. -/
noncomputable def _interpretation (isc_over_il : ℝ) (tdd_pass : Bool)
    (worst : List HarmonicLimitCheck) : List String :=
  (if isc_over_il < 20 then
    ["Weak PCC (low Isc/IL): harmonic currents are more likely to cause voltage distortion upstream."]
   else if isc_over_il < 50 then
    ["Moderate PCC strength: compliance depends strongly on low-order (5th/7th/11th/13th) magnitudes."]
   else
    ["Strong PCC: current limits are higher, but large 5th/7th can still trigger issues in shared systems."])
  ++ (if tdd_pass then [] else
    ["TDD exceeds limit: utility/PCC compliance risk is elevated; expect higher RMS heating and potential voltage THD concerns."])
  ++ (if worst.isEmpty then [] else
    ["Major individual harmonic violations: " ++
      String.intercalate (", ") ((worst.take 3).map (fun c => "h" ++ toString c.h)) ++
      ". These typically drive transformer/cable heating and upstream voltage distortion."])

/-- Source: ieee519.py, the rough risk level rule at the end of the evaluator. -/
noncomputable def _risk_level (tdd_pass : Bool) (violation_count : ℕ) : String :=
  if tdd_pass = false ∧ 2 ≤ violation_count then "HIGH"
  else if tdd_pass = false ∨ 1 ≤ violation_count then "MEDIUM"
  else "LOW"

/-- Source: ieee519.py, evaluate_ieee519_current_limits after the two input
validations and the row selection: the whole report construction, on the
selected row data (limits_by_band, tdd_limit, label). The worst violations are
the violating checks sorted by decreasing overage (a stable sort in the
source, modelled by a stable merge sort) truncated to five; the returned
checks are sorted by harmonic order. -/
noncomputable def _report (harmonic_percent_of_fund : List (ℤ × ℝ)) (il_a isc_a : ℝ)
    ( volt_class : String) (even_harmonic_factor : ℝ)
    (sel : List ℝ × ℝ × String) : IEEE519CurrentReport :=
  let isc_over_il := isc_a / il_a
  let limits_by_band := sel.1
  let tdd_limit := sel.2.1
  let label := sel.2.2
  let checks := _build_checks limits_by_band even_harmonic_factor harmonic_percent_of_fund
  let tdd := Real.sqrt (_sum_sq harmonic_percent_of_fund) * 100.0
  let tdd_pass : Bool := decide (tdd ≤ tdd_limit + 1e-12)
  let violations := checks.filter (fun c => ! c.pass_limit)
  let worst := (violations.mergeSort (fun c d => decide (_over d ≤ _over c))).take 5
  { volt_class := volt_class
    isc_a := isc_a
    il_a := il_a
    isc_over_il := isc_over_il
    category_label := label
    tdd_percent := tdd
    tdd_limit_percent := tdd_limit
    tdd_pass := tdd_pass
    checks := checks.mergeSort (fun c d => decide (c.h ≤ d.h))
    worst_violations := worst
    risk_level := _risk_level tdd_pass violations.length
    interpretation := _interpretation isc_over_il tdd_pass worst }

/-- Source: ieee519.py, evaluate_ieee519_current_limits. The Python defaults are
volt_class = 120V-69kV and even_harmonic_factor = 0.25; call sites below pass
them explicitly. -/
noncomputable def evaluate_ieee519_current_limits (harmonic_percent_of_fund : List (ℤ × ℝ))
    (il_a isc_a : ℝ) ( volt_class : String) (even_harmonic_factor : ℝ) :
    Except String IEEE519CurrentReport :=
  if il_a ≤ 0 then .error ("IL must be > 0 A")
  else if isc_a ≤ 0 then .error ("Isc must be > 0 A")
  else
    match _select_row (isc_a / il_a) with
    | .error e => .error e
    | .ok sel =>
      .ok (_report harmonic_percent_of_fund il_a isc_a volt_class even_harmonic_factor sel)

end Ieee519

namespace VoltageDistortion

/-- Source: pq_engine/analysis/voltage_distortion.py, SourceImpedanceModel. -/
structure SourceImpedanceModel where
  z1_ohm : ℝ
  xr : ℝ
  freq_exp : ℝ

/-- Source: voltage_distortion.py, VoltageDistortionResult. -/
structure VoltageDistortionResult where
  thdv_percent : ℝ
  vh_by_harmonic_v : List (ℤ × ℝ)
  v1_v : ℝ
  limit_percent : ℝ
  pass_limit : Bool
  risk_level : String
  interpretation : String

/-- Source: voltage_distortion.py, z_mag_at_harmonic: impedance magnitude at
harmonic order h, scaling as z1 times h to the freq_exp power. -/
noncomputable def z_mag_at_harmonic (z1_ohm : ℝ) (h : ℤ) (freq_exp : ℝ) :
    Except String ℝ :=
  if h < 1 then .error ("harmonic order must be >= 1")
  else if z1_ohm ≤ 0 then .error ("z1_ohm must be > 0")
  else .ok (z1_ohm * Real.rpow (h : ℝ) freq_exp)

/-- Source: voltage_distortion.py, the loop of thdv_from_spectrum: for every
entry with 2 <= h <= max_h, accumulate the per-harmonic voltage magnitude and
the sum of its squares; an error from z_mag_at_harmonic aborts the call. -/
noncomputable def _thdv_loop (i1_a : ℝ) (src : SourceImpedanceModel) (max_h : ℤ) :
    List (ℤ × ℝ) → Except String (List (ℤ × ℝ) × ℝ)
  | [] => .ok ([], 0)
  | (h, pct) :: rest =>
    if 2 ≤ h ∧ h ≤ max_h then
      match z_mag_at_harmonic src.z1_ohm h src.freq_exp with
      | .error e => .error e
      | .ok zh =>
        let ih_a := (pct / 100.0) * i1_a
        let vh_a := |ih_a| * |zh|
        match _thdv_loop i1_a src max_h rest with
        | .error e => .error e
        | .ok (vh, s) => .ok ((h, vh_a) :: vh, vh_a * vh_a + s)
    else _thdv_loop i1_a src max_h rest

/-- Source: voltage_distortion.py, the fixed interpretation text of the result. -/
def _THDV_INTERPRETATION : String :=
  "Voltage distortion is driven by harmonic currents flowing through PCC source impedance. " ++
  "Even if current TDD is acceptable, weak PCC (high impedance) can produce high THDv. " ++
  "Confirm impedance assumptions with short-circuit data and field measurements."

/-- Source: voltage_distortion.py, thdv_from_spectrum. The Python defaults are
max_h = 50 and voltage_limit_percent = 5.0; call sites below pass them
explicitly. -/
noncomputable def thdv_from_spectrum (harmonic_pct_of_fund : List (ℤ × ℝ))
    (i1_a v1_v : ℝ) (src : SourceImpedanceModel) (max_h : ℤ)
    (voltage_limit_percent : ℝ) : Except String VoltageDistortionResult :=
  if i1_a ≤ 0 then .error ("i1_a must be > 0")
  else if v1_v ≤ 0 then .error ("v1_v must be > 0")
  else
    match _thdv_loop i1_a src max_h harmonic_pct_of_fund with
    | .error e => .error e
    | .ok (vh, s) =>
      let thdv := Real.sqrt s / v1_v
      let thdv_pct := 100.0 * thdv
      let risk :=
        if thdv_pct ≤ 0.6 * voltage_limit_percent then "LOW"
        else if thdv_pct ≤ voltage_limit_percent then "MEDIUM"
        else "HIGH"
      .ok { thdv_percent := thdv_pct
            vh_by_harmonic_v := vh
            v1_v := v1_v
            limit_percent := voltage_limit_percent
            pass_limit := decide (thdv_pct ≤ voltage_limit_percent)
            risk_level := risk
            interpretation := _THDV_INTERPRETATION }

/-- Source: voltage_distortion.py, vln_from_vll: the square root of three is the
float literal of the source. -/
noncomputable def vln_from_vll (vll_v : ℝ) : ℝ := vll_v / 1.7320508075688772

end VoltageDistortion

namespace SourceImpedance

/-- Source: pq_engine/analysis/source_impedance.py, the module constant _SQRT3. -/
noncomputable def _SQRT3 : ℝ := 1.7320508075688772

/-- Source: source_impedance.py, isc_a_from_sc_mva. -/
noncomputable def isc_a_from_sc_mva (vll_v sc_mva : ℝ) : Except String ℝ :=
  if vll_v ≤ 0 then .error ("vll_v must be > 0.")
  else if sc_mva ≤ 0 then .error ("sc_mva must be > 0.")
  else .ok (sc_mva * 1e6 / (_SQRT3 * vll_v))

/-- Source: source_impedance.py, zth_ohm_from_sc_mva: Zth = VLL^2 / Ssc. -/
noncomputable def zth_ohm_from_sc_mva (vll_v sc_mva : ℝ) : Except String ℝ :=
  if vll_v ≤ 0 then .error ("vll_v must be > 0.")
  else if sc_mva ≤ 0 then .error ("sc_mva must be > 0.")
  else .ok (vll_v ^ 2 / (sc_mva * 1e6))

/-- Source: source_impedance.py, isc_over_il_from_sc_mva: the IL validation runs
first, then the Isc computation with its own validations. -/
noncomputable def isc_over_il_from_sc_mva (vll_v sc_mva il_a : ℝ) : Except String ℝ :=
  if il_a ≤ 0 then .error ("il_a must be > 0.")
  else
    match isc_a_from_sc_mva vll_v sc_mva with
    | .error e => .error e
    | .ok isc => .ok (isc / il_a)

/-- Modelled from the spec: source_from_sc_mva is imported by the comparison
engine from the voltage-distortion module but is absent from it in the sources
at hand. Per the spec, the estimator derives the per-phase Thevenin impedance
magnitude from grid line-to-line voltage and short-circuit apparent power as
Z1 = VLL^2 / Ssc, with the configurable frequency-scaling exponent, the X/R
ratio being an unused placeholder (the model default is 10). -/
noncomputable def source_from_sc_mva (vll_v sc_mva freq_exp : ℝ) :
    Except String VoltageDistortion.SourceImpedanceModel :=
  match zth_ohm_from_sc_mva vll_v sc_mva with
  | .error e => .error e
  | .ok z1 => .ok { z1_ohm := z1, xr := 10.0, freq_exp := freq_exp }

end SourceImpedance

namespace UpsHarmonics

/-- Source: pq_engine/models/ups_harmonics.py, UPSHarmonicProfile. -/
structure UPSHarmonicProfile where
  name : String
  pulse : Option ℤ
  harmonic_pct_of_fund_rms : List (ℤ × ℝ)
  notes : String

/-- Source: ups_harmonics.py, harmonic_presets: the fixed preset catalog, in the
insertion order of the source dict. -/
noncomputable def harmonic_presets : List (String × UPSHarmonicProfile) :=
  [ ("6pulse_typical",
     { name := "6-pulse (typical)"
       pulse := some 6
       harmonic_pct_of_fund_rms :=
         [(5, 20.0), (7, 14.0), (11, 9.0), (13, 7.0), (17, 5.0), (19, 4.0),
          (23, 3.0), (25, 2.0), (29, 1.5), (31, 1.2)]
       notes := "Typical for older 6-pulse UPS/rectifiers at moderate-high load. Strong 5th/7th." }),
    ("12pulse_typical",
     { name := "12-pulse (typical)"
       pulse := some 12
       harmonic_pct_of_fund_rms :=
         [(11, 10.0), (13, 8.0), (23, 4.0), (25, 3.0), (35, 2.0), (37, 1.5)]
       notes := "5th/7th mostly canceled. Dominant 11th/13th." }),
    ("18pulse_typical",
     { name := "18-pulse (typical)"
       pulse := some 18
       harmonic_pct_of_fund_rms :=
         [(17, 5.0), (19, 4.0), (35, 2.0), (37, 1.5), (53, 1.0)]
       notes := "Lower THD-I, dominant 17th/19th." }),
    ("afe_low_harm",
     { name := "AFE (low low-order harmonics)"
       pulse := none
       harmonic_pct_of_fund_rms :=
         [(5, 2.0), (7, 1.5), (11, 1.0), (13, 0.8), (17, 0.6), (19, 0.5)]
       notes := "Represents modern AFE/PFC behavior for low-order harmonics; ignores HF switching ripple." }) ]

/-- Source: ups_harmonics.py, load_adjust_spectrum: clamp the load into
[0.05, 1.00]; with the rectifier_like model the scale is
a + b / load_pu ^ c with a = 0.85, b = 0.15, c = 0.8, clamped to [0.95, 1.45];
the flat model keeps scale = 1. -/
noncomputable def load_adjust_spectrum (base_pct : List (ℤ × ℝ)) (load_pu : ℝ)
    (model : String) : List (ℤ × ℝ) :=
  let lp := np_clip load_pu 0.05 1.00
  let scale :=
    if model = "flat" then 1.0
    else np_clip (0.85 + 0.15 / Real.rpow lp 0.8) 0.95 1.45
  base_pct.map (fun hp => (hp.1, hp.2 * scale))

/-- Models the numpy seeded generator: default_rng(seed).uniform(0, 2 pi), drawn
sequentially, is a fixed deterministic function of the seed and of the draw
index. The concrete stream values are irrelevant to every property proved
below; what is modelled is that the stream is a pure function of the seed. -/
noncomputable def _rng_uniform_0_2pi (seed k : ℕ) : ℝ :=
  ((((seed + 1) * 6364136223846793005 + (k + 1) * 1442695040888963407) % 2 ^ 64 : ℕ) : ℝ)
    / (2 ^ 64 : ℝ) * (2 * Real.pi)

/-- Source: numpy.deg2rad. -/
noncomputable def _deg2rad (d : ℝ) : ℝ := d * Real.pi / 180

/-- Source: the Python float modulo, with the sign of the divisor. -/
noncomputable def _float_mod (a b : ℝ) : ℝ := a - b * ⌊a / b⌋

/-- Source: ups_harmonics.py, the per-harmonic phase choice inside
synthesize_current_time_series: zero, deterministic (h times 17 degrees modulo
360), or the next seeded uniform draw (any other mode string). -/
noncomputable def _harmonic_phase (mode : String) (seed k : ℕ) (h : ℤ) : ℝ :=
  if mode = "zero" then 0.0
  else if mode = "deterministic" then _deg2rad (_float_mod ((h : ℝ) * 17.0) 360.0)
  else _rng_uniform_0_2pi seed k

/-- Source: ups_harmonics.py, the harmonic summation loop of
synthesize_current_time_series; k counts the uniform draws consumed so far. -/
noncomputable def _add_harmonics (i1_rms w : ℝ) (mode : String) (seed : ℕ)
    (t : List ℝ) : ℕ → List ℝ → List (ℤ × ℝ) → List ℝ
  | _, i, [] => i
  | k, i, (h, pct) :: rest =>
    let ih_rms := (pct / 100.0) * i1_rms
    let ih_peak := Real.sqrt 2.0 * ih_rms
    let ph := _harmonic_phase mode seed k h
    let i2 := List.zipWith (fun ik tk => ik + ih_peak * Real.sin ((h : ℝ) * w * tk + ph)) i t
    _add_harmonics i1_rms w mode seed t (k + 1) i2 rest

/-- Source: ups_harmonics.py, synthesize_current_time_series: build
i(t) = I1 sin(w t + phi1) + sum over h of Ih sin(h w t + phih), returning
(t, i, fs). The Python defaults are cycles = 10, samples_per_cycle = 4096,
fundamental_phase_deg = 0.0, harmonic_phase_mode = random, seed = 17. -/
noncomputable def synthesize_current_time_series (f_hz i1_rms : ℝ)
    (harmonic_pct_of_fund_rms : List (ℤ × ℝ)) (cycles samples_per_cycle : ℕ)
    (fundamental_phase_deg : ℝ) (harmonic_phase_mode : String) (seed : ℕ) :
    List ℝ × List ℝ × ℝ :=
  let fs := f_hz * (samples_per_cycle : ℝ)
  let n := cycles * samples_per_cycle
  let t : List ℝ := (List.range n).map (fun j => (j : ℝ) / fs)
  let w := 2.0 * Real.pi * f_hz
  let i0 : List ℝ :=
    t.map (fun tk => Real.sqrt 2.0 * i1_rms * Real.sin (w * tk + _deg2rad fundamental_phase_deg))
  let i := _add_harmonics i1_rms w harmonic_phase_mode seed t 0 i0 harmonic_pct_of_fund_rms
  (t, i, fs)

/-- Source: ups_harmonics.py, thd_i_from_spectrum: sqrt of the sum of
(pct/100)^2 over all spectrum values (no range filter in this module). -/
noncomputable def thd_i_from_spectrum (harmonic_pct_of_fund_rms : List (ℤ × ℝ)) : ℝ :=
  Real.sqrt ((harmonic_pct_of_fund_rms.map (fun hp => (hp.2 / 100.0) ^ 2)).sum)

end UpsHarmonics

namespace Mitigation

open Ieee519

/-- Source: pq_engine/analysis/mitigation.py, attenuation_none. -/
noncomputable def attenuation_none (_h : ℤ) : ℝ := 1.0

/-- Source: mitigation.py, attenuation_tuned_5_7: strong reduction at the 5th
and 7th, some at the 11th and 13th, mild elsewhere in low order. -/
noncomputable def attenuation_tuned_5_7 (h : ℤ) : ℝ :=
  if h = 5 then 0.25
  else if h = 7 then 0.30
  else if h = 11 ∨ h = 13 then 0.65
  else if 2 ≤ h ∧ h ≤ 25 then 0.85
  else 0.95

/-- Source: mitigation.py, attenuation_broadband_passive. -/
noncomputable def attenuation_broadband_passive (h : ℤ) : ℝ :=
  if 2 ≤ h ∧ h ≤ 11 then 0.55
  else if 12 ≤ h ∧ h ≤ 25 then 0.70
  else if 26 ≤ h ∧ h ≤ 50 then 0.85
  else 1.0

/-- Source: mitigation.py, attenuation_active_filter_like. -/
noncomputable def attenuation_active_filter_like (h : ℤ) : ℝ :=
  if 2 ≤ h ∧ h ≤ 11 then 0.25
  else if 12 ≤ h ∧ h ≤ 25 then 0.40
  else if 26 ≤ h ∧ h ≤ 50 then 0.60
  else 1.0

/-- Source: mitigation.py, FILTER_LIBRARY: the closed string-keyed catalog of
attenuation curves. -/
noncomputable def FILTER_LIBRARY : List (String × (ℤ → ℝ)) :=
  [ ("none", attenuation_none),
    ("tuned_5_7", attenuation_tuned_5_7),
    ("broadband_passive", attenuation_broadband_passive),
    ("active_filter_like", attenuation_active_filter_like) ]

/-- Source: mitigation.py, apply_attenuation: a dict comprehension building a
new mapping whose value at each harmonic order is the input percent times the
attenuation factor at that order; the input mapping is left untouched (the
embedding is pure, so non-mutation is inherent: the argument list is a value). -/
noncomputable def apply_attenuation (harmonic_pct_of_fund : List (ℤ × ℝ))
    (attenuation_fn : ℤ → ℝ) : List (ℤ × ℝ) :=
  harmonic_pct_of_fund.map (fun hp => (hp.1, hp.2 * attenuation_fn hp.1))

/-- Source: mitigation.py, the loop of thd_i_from_pct: sum of (pct/100)^2 over
the entries with 2 <= h <= max_h. -/
noncomputable def _thd_sum : List (ℤ × ℝ) → ℤ → ℝ
  | [], _ => 0
  | (h, pct) :: rest, max_h =>
    (if 2 ≤ h ∧ h ≤ max_h then (pct / 100.0) ^ 2 else 0) + _thd_sum rest max_h

/-- Source: mitigation.py, thd_i_from_pct (per-unit THD-I from percents of the
fundamental). The Python default is max_h = 50; call sites pass it explicitly. -/
noncomputable def thd_i_from_pct (harmonic_pct_of_fund : List (ℤ × ℝ)) (max_h : ℤ) : ℝ :=
  Real.sqrt (_thd_sum harmonic_pct_of_fund max_h)

/-- Source: mitigation.py, irms_inflation_factor. -/
noncomputable def irms_inflation_factor (thd_pu : ℝ) : ℝ :=
  Real.sqrt (1.0 + thd_pu * thd_pu)

/-- Source: mitigation.py, the loop of transformer_heating_proxy: sum of
h^2 times Ih^2 in per-unit over the entries with 2 <= h <= max_h. -/
noncomputable def _heating_sum : List (ℤ × ℝ) → ℤ → ℝ
  | [], _ => 0
  | (h, pct) :: rest, max_h =>
    (if 2 ≤ h ∧ h ≤ max_h then ((h : ℝ) * (h : ℝ)) * ((pct / 100.0) * (pct / 100.0)) else 0)
      + _heating_sum rest max_h

/-- Source: mitigation.py, transformer_heating_proxy. The Python default is
max_h = 50; call sites pass it explicitly. -/
noncomputable def transformer_heating_proxy (harmonic_pct_of_fund : List (ℤ × ℝ))
    (max_h : ℤ) : ℝ :=
  _heating_sum harmonic_pct_of_fund max_h

/-- Source: mitigation.py, ScenarioResult. -/
structure ScenarioResult where
  name : String
  spectrum_pct_of_fund : List (ℤ × ℝ)
  thd_i_percent : ℝ
  irms_over_i1 : ℝ
  heating_proxy : ℝ
  ieee519 : IEEE519CurrentReport

/-- Source: mitigation.py, run_scenario: derive THD-I, the RMS inflation and the
heating proxy from the spectrum, evaluate the IEEE-519 limits, and bundle the
results; a validation error of the evaluator propagates. -/
noncomputable def run_scenario (name : String) (spectrum_pct_of_fund : List (ℤ × ℝ))
    (il_a isc_a : ℝ) : Except String ScenarioResult :=
  let thd_pu := thd_i_from_pct spectrum_pct_of_fund 50
  let thd_pct := thd_pu * 100.0
  let infl := irms_inflation_factor thd_pu
  let heat := transformer_heating_proxy spectrum_pct_of_fund 50
  match evaluate_ieee519_current_limits spectrum_pct_of_fund il_a isc_a ("120V-69kV") 0.25 with
  | .error e => .error e
  | .ok rpt =>
    .ok { name := name
          spectrum_pct_of_fund := spectrum_pct_of_fund
          thd_i_percent := thd_pct
          irms_over_i1 := infl
          heating_proxy := heat
          ieee519 := rpt }

/-- Source: mitigation.py, _split_major_minor_violations: walk the worst
violations in order; low-order (h <= 13) failures are always major, small
high-order overages are minor, everything else is major. -/
noncomputable def _split_major_minor_violations (ieee : IEEE519CurrentReport) :
    List HarmonicLimitCheck × List HarmonicLimitCheck :=
  ieee.worst_violations.foldl
    (fun mm v =>
      let over := v.ih_percent_of_il - v.limit_percent_of_il
      if v.h ≤ 13 then (mm.1 ++ [v], mm.2)
      else if 23 ≤ v.h ∧ over ≤ 1.0 then (mm.1, mm.2 ++ [v])
      else if 17 ≤ v.h ∧ over ≤ 0.5 then (mm.1, mm.2 ++ [v])
      else (mm.1 ++ [v], mm.2))
    ([], [])

/-- Source: mitigation.py, _severity_score: weighted sum of the overages of the
worst violations, weight 5 up to order 13, 2 up to order 23, 1 above, with the
minor-qualifying entries downweighted by 0.2. -/
noncomputable def _severity_score (ieee : IEEE519CurrentReport) : ℝ :=
  ieee.worst_violations.foldl
    (fun sev v =>
      let over := max 0.0 (v.ih_percent_of_il - v.limit_percent_of_il)
      let w : ℝ := if v.h ≤ 13 then 5.0 else if v.h ≤ 23 then 2.0 else 1.0
      let w2 := if (23 ≤ v.h ∧ over ≤ 1.0) ∨ (17 ≤ v.h ∧ over ≤ 0.5) then w * 0.2 else w
      sev + w2 * over)
    0.0

end Mitigation

namespace TopologyCompare

open Ieee519 VoltageDistortion SourceImpedance UpsHarmonics Mitigation

/-- Source: pq_engine/analysis/topology_compare.py, DEFAULT_TOPOLOGY_KEYS. -/
def DEFAULT_TOPOLOGY_KEYS : List String :=
  ["6pulse_typical", "12pulse_typical", "18pulse_typical", "afe_low_harm"]

/-- Source: topology_compare.py, the default filter list of
compare_ups_topologies. -/
def DEFAULT_FILTER_KEYS : List String :=
  ["none", "tuned_5_7", "broadband_passive", "active_filter_like"]

/-- Source: topology_compare.py, _split_major_minor (a duplicate of the split in
mitigation.py, kept separately as in the source). -/
noncomputable def _split_major_minor (ieee_report : IEEE519CurrentReport) :
    List HarmonicLimitCheck × List HarmonicLimitCheck :=
  ieee_report.worst_violations.foldl
    (fun mm v =>
      let over := v.ih_percent_of_il - v.limit_percent_of_il
      if v.h ≤ 13 then (mm.1 ++ [v], mm.2)
      else if 23 ≤ v.h ∧ over ≤ 1.0 then (mm.1, mm.2 ++ [v])
      else if 17 ≤ v.h ∧ over ≤ 0.5 then (mm.1, mm.2 ++ [v])
      else (mm.1 ++ [v], mm.2))
    ([], [])

/-- Source: topology_compare.py, _severity_score (a duplicate of the score in
mitigation.py, kept separately as in the source). -/
noncomputable def _severity_score_tc (ieee_report : IEEE519CurrentReport) : ℝ :=
  ieee_report.worst_violations.foldl
    (fun sev v =>
      let over := max 0.0 (v.ih_percent_of_il - v.limit_percent_of_il)
      let w : ℝ := if v.h ≤ 13 then 5.0 else if v.h ≤ 23 then 2.0 else 1.0
      let w2 := if (23 ≤ v.h ∧ over ≤ 1.0) ∨ (17 ≤ v.h ∧ over ≤ 0.5) then w * 0.2 else w
      sev + w2 * over)
    0.0

/-- Source: topology_compare.py, rank_key inside compare_ups_topologies: the
lexicographic ranking tuple (voltage fail, TDD fail, major count, severity,
THDv percent, heating proxy), modelled as a nested lexicographic product. -/
noncomputable def _rank_key (p : ScenarioResult × VoltageDistortionResult) :
    Lex (ℕ × Lex (ℕ × Lex (ℕ × Lex (ℝ × Lex (ℝ × ℝ))))) :=
  toLex ((if p.2.pass_limit then 0 else 1),
    toLex ((if p.1.ieee519.tdd_pass then 0 else 1),
      toLex ((_split_major_minor p.1.ieee519).1.length,
        toLex (_severity_score_tc p.1.ieee519,
          toLex (p.2.thdv_percent, p.1.heating_proxy)))))

/-- Source: topology_compare.py, one element of the output list of
compare_ups_topologies (a dict in the source; the dict keys become fields). -/
structure ScenarioRow where
  name : String
  thd_i_percent : ℝ
  tdd_percent : ℝ
  tdd_limit_percent : ℝ
  strict_pass : Bool
  practical_pass : Bool
  severity_score : ℝ
  risk_level_current : String
  isc_over_il : ℝ
  worst_harmonic : Option ℤ
  heating_proxy : ℝ
  thdv_percent : ℝ
  thdv_limit_percent : ℝ
  thdv_pass : Bool
  risk_level_voltage : String
  top_violations : List (ℤ × ℝ × ℝ)
  major_violations : List (ℤ × ℝ)
  minor_violations : List (ℤ × ℝ)
  interpretation_current : List String
  interpretation_voltage : String
  spectrum_pct_of_fund : List (ℤ × ℝ)

/-- Source: topology_compare.py, the output-row construction in the final loop
of compare_ups_topologies. -/
noncomputable def _scenario_row (s : ScenarioResult) (vres : VoltageDistortionResult)
    (isc_over_il : ℝ) : ScenarioRow :=
  let worst : Option ℤ := s.ieee519.worst_violations.head?.map (fun c => c.h)
  let strict : Bool := s.ieee519.tdd_pass && decide (s.ieee519.worst_violations.length = 0)
  let mm := _split_major_minor s.ieee519
  let practical : Bool := s.ieee519.tdd_pass && decide (mm.1.length = 0)
  { name := s.name
    thd_i_percent := py_round s.thd_i_percent 2
    tdd_percent := py_round s.ieee519.tdd_percent 2
    tdd_limit_percent := py_round s.ieee519.tdd_limit_percent 2
    strict_pass := strict
    practical_pass := practical
    severity_score := py_round (_severity_score_tc s.ieee519) 3
    risk_level_current := s.ieee519.risk_level
    isc_over_il := py_round isc_over_il 1
    worst_harmonic := worst
    heating_proxy := py_round s.heating_proxy 4
    thdv_percent := py_round vres.thdv_percent 2
    thdv_limit_percent := py_round vres.limit_percent 2
    thdv_pass := vres.pass_limit
    risk_level_voltage := vres.risk_level
    top_violations := s.ieee519.worst_violations.map
      (fun v => (v.h, py_round v.ih_percent_of_il 2, py_round v.limit_percent_of_il 2))
    major_violations := mm.1.map
      (fun v => (v.h, py_round (v.ih_percent_of_il - v.limit_percent_of_il) 2))
    minor_violations := mm.2.map
      (fun v => (v.h, py_round (v.ih_percent_of_il - v.limit_percent_of_il) 2))
    interpretation_current := s.ieee519.interpretation
    interpretation_voltage := vres.interpretation
    spectrum_pct_of_fund := s.spectrum_pct_of_fund.mergeSort (fun a b => decide (a.1 ≤ b.1)) }

/-- Source: the Python idiom (argument or DEFAULT) used by compare_ups_topologies
for its key lists: both None and the empty list select the default. -/
def _or_default (o : Option (List String)) (d : List String) : List String :=
  match o with
  | none => d
  | some [] => d
  | some l => l

/-- Source: topology_compare.py, the inner filter loop of compare_ups_topologies:
skip the key none, fail on an unknown filter key, otherwise run the attenuated
scenario. -/
noncomputable def _filter_scenarios (base : List (ℤ × ℝ)) (profile_name : String)
    (il_a isc_a : ℝ) : List String → Except String (List ScenarioResult)
  | [] => .ok []
  | fkey :: rest =>
    if fkey = "none" then _filter_scenarios base profile_name il_a isc_a rest
    else
      match FILTER_LIBRARY.lookup fkey with
      | none => .error ("Unknown filter key " ++ fkey ++ ".")
      | some att =>
        match run_scenario (profile_name ++ " + " ++ fkey) (apply_attenuation base att) il_a isc_a with
        | .error e => .error e
        | .ok s =>
          match _filter_scenarios base profile_name il_a isc_a rest with
          | .error e => .error e
          | .ok ss => .ok (s :: ss)

/-- Source: topology_compare.py, one iteration of the outer topology loop of
compare_ups_topologies: fail on an unknown preset key, load-adjust the base
spectrum, run the unfiltered scenario, then the applicable filters (the
per-topology override applies when the map is non-empty and has the key);
returns the scenarios this topology contributes, in order. -/
noncomputable def _one_topology (load_pu il_a isc_over_il : ℝ)
    (filters : List String) (per_topology_filter_map : Option (List (String × List String)))
    (tkey : String) : Except String (List ScenarioResult) :=
  match harmonic_presets.lookup tkey with
  | none => .error ("Preset " ++ tkey ++ " not found in harmonic_presets().")
  | some profile =>
    let base := load_adjust_spectrum profile.harmonic_pct_of_fund_rms load_pu ("rectifier_like")
    match run_scenario (profile.name ++ " (no filter)") base il_a (isc_over_il * il_a) with
    | .error e => .error e
    | .ok s0 =>
      let f_list :=
        match per_topology_filter_map with
        | none => filters
        | some m =>
          if m ≠ [] then
            match m.lookup tkey with
            | some fl => fl
            | none => filters
          else filters
      match _filter_scenarios base profile.name il_a (isc_over_il * il_a) f_list with
      | .error e => .error e
      | .ok fs => .ok (s0 :: fs)

/-- Source: topology_compare.py, the outer topology loop of
compare_ups_topologies: concatenate, per topology key in order, the scenarios
contributed by that topology. -/
noncomputable def _topology_scenarios (load_pu il_a isc_over_il : ℝ)
    (filters : List String) (per_topology_filter_map : Option (List (String × List String))) :
    List String → Except String (List ScenarioResult)
  | [] => .ok []
  | tkey :: rest =>
    match _one_topology load_pu il_a isc_over_il filters per_topology_filter_map tkey with
    | .error e => .error e
    | .ok group =>
      match _topology_scenarios load_pu il_a isc_over_il filters per_topology_filter_map rest with
      | .error e => .error e
      | .ok ss => .ok (group ++ ss)

/-- Source: topology_compare.py, the THDv enrichment loop of
compare_ups_topologies: pair every scenario with its voltage-distortion result
(max_h = 50, the configured limit). -/
noncomputable def _enrich (il_a v1 : ℝ) (src : SourceImpedanceModel)
    (thdv_limit_percent : ℝ) :
    List ScenarioResult → Except String (List (ScenarioResult × VoltageDistortionResult))
  | [] => .ok []
  | s :: rest =>
    match thdv_from_spectrum s.spectrum_pct_of_fund il_a v1 src 50 thdv_limit_percent with
    | .error e => .error e
    | .ok vres =>
      match _enrich il_a v1 src thdv_limit_percent rest with
      | .error e => .error e
      | .ok es => .ok ((s, vres) :: es)

/-- Source: topology_compare.py, compare_ups_topologies: derive Isc/IL and the
source model from the PCC strength, build all scenarios, enrich with THDv,
sort by the lexicographic rank key (the stable Python sort is modelled by the
stable merge sort) and emit the output rows in that order. -/
noncomputable def compare_ups_topologies (load_pu il_a vll_v sc_mva : ℝ)
    (topology_keys : Option (List String)) (filters : Option (List String))
    (per_topology_filter_map : Option (List (String × List String)))
    (thdv_limit_percent : ℝ) (z_freq_exp : ℝ) : Except String (List ScenarioRow) :=
  let tkeys := _or_default topology_keys DEFAULT_TOPOLOGY_KEYS
  let fkeys := _or_default filters DEFAULT_FILTER_KEYS
  match isc_over_il_from_sc_mva vll_v sc_mva il_a with
  | .error e => .error e
  | .ok isc_over_il =>
    match source_from_sc_mva vll_v sc_mva z_freq_exp with
    | .error e => .error e
    | .ok src =>
      let v1 := vln_from_vll vll_v
      match _topology_scenarios load_pu il_a isc_over_il fkeys per_topology_filter_map tkeys with
      | .error e => .error e
      | .ok scenarios =>
        match _enrich il_a v1 src thdv_limit_percent scenarios with
        | .error e => .error e
        | .ok enriched =>
          .ok (((enriched.mergeSort (fun p q => decide (_rank_key p ≤ _rank_key q))).map
            (fun p => _scenario_row p.1 p.2 isc_over_il)))

end TopologyCompare

end PQ

/-! Proof development: helper lemmas shared by the theorems below. -/

namespace PQ

namespace Ieee519

/-- Default row used with List.getD when indexing the limit table. -/
noncomputable def _DROW : Option ℝ × Option ℝ × List ℝ × ℝ := (none, none, [], 0)

theorem _scan_rows_pos {r : ℝ} {row : Option ℝ × Option ℝ × List ℝ × ℝ}
    {rest : List (Option ℝ × Option ℝ × List ℝ × ℝ)} (h : _row_matches r row = true) :
    _scan_rows r (row :: rest) =
      some (match _row_label row.1 row.2.1 with
        | .error e => .error e
        | .ok label => .ok (row.2.2.1, row.2.2.2, label)) := by
  conv_lhs => unfold _scan_rows
  rw [if_pos h]

theorem _scan_rows_neg {r : ℝ} {row : Option ℝ × Option ℝ × List ℝ × ℝ}
    {rest : List (Option ℝ × Option ℝ × List ℝ × ℝ)} (h : _row_matches r row = false) :
    _scan_rows r (row :: rest) = _scan_rows r rest := by
  conv_lhs => unfold _scan_rows
  rw [if_neg (by simp [h])]

theorem _select_row_band0 {r : ℝ} (h : r ≤ 20) :
    _select_row r = .ok ([4.0, 2.0, 1.5, 0.6, 0.3], 5.0,
      ("<") ++ "–" ++ toString (py_int 20.0)) := by
  unfold _select_row _TABLE2_ROWS
  rw [_scan_rows_pos (by simp [_row_matches]; linarith)]
  rfl

theorem _select_row_band1 {r : ℝ} (h1 : 20 < r) (h2 : r ≤ 50) :
    _select_row r = .ok ([7.0, 3.5, 2.5, 1.0, 0.5], 8.0,
      toString (py_int 20.0) ++ "–" ++ toString (py_int 50.0)) := by
  unfold _select_row _TABLE2_ROWS
  rw [_scan_rows_neg (by simp [_row_matches]; linarith),
      _scan_rows_pos (by simp [_row_matches]; constructor <;> linarith)]
  rfl

theorem _select_row_band2 {r : ℝ} (h1 : 50 < r) (h2 : r ≤ 100) :
    _select_row r = .ok ([10.0, 4.5, 4.0, 1.5, 0.7], 12.0,
      toString (py_int 50.0) ++ "–" ++ toString (py_int 100.0)) := by
  unfold _select_row _TABLE2_ROWS
  rw [_scan_rows_neg (by simp [_row_matches]; linarith),
      _scan_rows_neg (by simp [_row_matches]; intro h; linarith),
      _scan_rows_pos (by simp [_row_matches]; constructor <;> linarith)]
  rfl

theorem _select_row_band3 {r : ℝ} (h1 : 100 < r) (h2 : r ≤ 1000) :
    _select_row r = .ok ([12.0, 5.5, 5.0, 2.0, 1.0], 15.0,
      toString (py_int 100.0) ++ "–" ++ toString (py_int 1000.0)) := by
  unfold _select_row _TABLE2_ROWS
  rw [_scan_rows_neg (by simp [_row_matches]; linarith),
      _scan_rows_neg (by simp [_row_matches]; intro h; linarith),
      _scan_rows_neg (by simp [_row_matches]; intro h; linarith),
      _scan_rows_pos (by simp [_row_matches]; constructor <;> linarith)]
  rfl

theorem _select_row_band4 {r : ℝ} (h1 : 1000 < r) :
    _select_row r = .error ("OverflowError: cannot convert float infinity to integer") := by
  unfold _select_row _TABLE2_ROWS
  rw [_scan_rows_neg (by simp [_row_matches]; linarith),
      _scan_rows_neg (by simp [_row_matches]; intro h; linarith),
      _scan_rows_neg (by simp [_row_matches]; intro h; linarith),
      _scan_rows_neg (by simp [_row_matches]; intro h; linarith),
      _scan_rows_pos (by simp [_row_matches]; linarith)]
  rfl

theorem _select_row_ok_of_le {r : ℝ} (hle : r ≤ 1000) :
    ∃ sel, _select_row r = .ok sel := by
  rcases le_or_lt r 20 with h | h
  · exact ⟨_, _select_row_band0 h⟩
  rcases le_or_lt r 50 with h2 | h2
  · exact ⟨_, _select_row_band1 h h2⟩
  rcases le_or_lt r 100 with h3 | h3
  · exact ⟨_, _select_row_band2 h2 h3⟩
  exact ⟨_, _select_row_band3 h3 hle⟩

end Ieee519

/-- Lower ends of the five harmonic bands of the spec (2-10, 11-16, 17-22,
23-34, 35-50), used to state the partition property. -/
def band_lo : Fin 5 → ℤ := ![2, 11, 17, 23, 35]

/-- Upper ends of the five harmonic bands of the spec. -/
def band_hi : Fin 5 → ℤ := ![10, 16, 22, 34, 50]

end PQ

open PQ PQ.Ieee519 PQ.VoltageDistortion PQ.SourceImpedance PQ.UpsHarmonics PQ.Mitigation PQ.TopologyCompare

/-- C3: every integer harmonic order h with 2 <= h <= 50 is mapped by the limit
evaluator to exactly one of the five bands 2-10, 11-16, 17-22, 23-34, 35-50
(the bands partition [2,50] with no gaps or overlaps); moreover h = 10 and
h = 11 map to different bands, and h = 22 and h = 23 map to different bands. -/
theorem band_index_partitions_range :
    (∀ h : ℤ, 2 ≤ h → h ≤ 50 →
      ∃ b : Fin 5, _band_index h = some b ∧
        ∀ b2 : Fin 5, (band_lo b2 ≤ h ∧ h ≤ band_hi b2) ↔ b2 = b) ∧
    _band_index 10 ≠ _band_index 11 ∧ _band_index 22 ≠ _band_index 23 := by
  refine ⟨?_, by decide, by decide⟩
  intro h h1 h2
  interval_cases h <;> decide

/-- Witness for C3 at the band boundary h = 23. -/
theorem band_index_partitions_range_witness :
    ∃ b : Fin 5, _band_index 23 = some b ∧
      ∀ b2 : Fin 5, (band_lo b2 ≤ 23 ∧ (23:ℤ) ≤ band_hi b2) ↔ b2 = b :=
  band_index_partitions_range.1 23 (by decide) (by decide)

/-- C2 (code bug): the five bands of the limit table are exclusive below and
inclusive above, cover every real ratio, and match exactly one row each; for
positive IL and Isc whose ratio matches one of the first four rows, the
evaluator selects that row (at the boundary, ratio 20 gives the first row,
TDD limit 5.0, and ratio 35 the second row, TDD limit 8.0). The claimed
selection for every positive IL and Isc, however, fails on the last band: for
any ratio above 1000 the source raises OverflowError while formatting the
selected row label (the int() builtin applied to the infinite upper bound), so
no row is returned; at IL = 1 A and Isc = 2000 A the evaluator fails instead
of selecting the (1000, inf] row. -/
theorem ieee519_row_selection_overflow :
    (∀ r : ℝ, ∃! i : Fin 5, _row_matches r (_TABLE2_ROWS.getD i _DROW) = true) ∧
    (∀ il isc : ℝ, 0 < il → 0 < isc → ∀ i : Fin 5, i ≠ 4 →
      _row_matches (isc / il) (_TABLE2_ROWS.getD i _DROW) = true →
      ∃ sel, _select_row (isc / il) = .ok sel ∧
        sel.1 = (_TABLE2_ROWS.getD i _DROW).2.2.1 ∧
        sel.2.1 = (_TABLE2_ROWS.getD i _DROW).2.2.2) ∧
    (∃ sel, _select_row 20.0 = .ok sel ∧ sel.2.1 = 5.0 ∧
      sel.1 = [4.0, 2.0, 1.5, 0.6, 0.3]) ∧
    (∃ sel, _select_row 35 = .ok sel ∧ sel.2.1 = 8.0 ∧
      sel.1 = [7.0, 3.5, 2.5, 1.0, 0.5]) ∧
    (∀ r : ℝ, 1000 < r →
      _select_row r = .error ("OverflowError: cannot convert float infinity to integer")) ∧
    evaluate_ieee519_current_limits [] 1 2000 ("120V-69kV") 0.25 =
      .error ("OverflowError: cannot convert float infinity to integer") := by
  refine ⟨?_, ?_, ?_, ?_, fun r hr => _select_row_band4 hr, ?_⟩
  · intro r
    rcases le_or_lt r 20 with h | h
    · refine ⟨⟨0, by omega⟩, by norm_num [_TABLE2_ROWS, _DROW, _row_matches]; linarith, ?_⟩
      intro j hj
      fin_cases j <;>
        first
        | rfl
        | (exfalso; norm_num [_TABLE2_ROWS, _DROW, _row_matches] at hj; try linarith)
    · rcases le_or_lt r 50 with h2 | h2
      · refine ⟨⟨1, by omega⟩,
          by norm_num [_TABLE2_ROWS, _DROW, _row_matches]; constructor <;> linarith, ?_⟩
        intro j hj
        fin_cases j <;>
          first
          | rfl
          | (exfalso; norm_num [_TABLE2_ROWS, _DROW, _row_matches] at hj; try linarith)
      · rcases le_or_lt r 100 with h3 | h3
        · refine ⟨⟨2, by omega⟩,
            by norm_num [_TABLE2_ROWS, _DROW, _row_matches]; constructor <;> linarith, ?_⟩
          intro j hj
          fin_cases j <;>
            first
            | rfl
            | (exfalso; norm_num [_TABLE2_ROWS, _DROW, _row_matches] at hj; try linarith)
        · rcases le_or_lt r 1000 with h4 | h4
          · refine ⟨⟨3, by omega⟩,
              by norm_num [_TABLE2_ROWS, _DROW, _row_matches]; constructor <;> linarith, ?_⟩
            intro j hj
            fin_cases j <;>
              first
              | rfl
              | (exfalso; norm_num [_TABLE2_ROWS, _DROW, _row_matches] at hj; try linarith)
          · refine ⟨⟨4, by omega⟩, by norm_num [_TABLE2_ROWS, _DROW, _row_matches]; linarith, ?_⟩
            intro j hj
            fin_cases j <;>
              first
              | rfl
              | (exfalso; norm_num [_TABLE2_ROWS, _DROW, _row_matches] at hj; try linarith)
  · intro il isc hil hisc i hi4 hm
    fin_cases i
    · norm_num [_TABLE2_ROWS, _DROW, _row_matches] at hm
      refine ⟨_, _select_row_band0 (by linarith), ?_, ?_⟩ <;> norm_num [_TABLE2_ROWS, _DROW]
    · norm_num [_TABLE2_ROWS, _DROW, _row_matches] at hm
      refine ⟨_, _select_row_band1 (by linarith [hm.1]) (by linarith [hm.2]), ?_, ?_⟩ <;>
        norm_num [_TABLE2_ROWS, _DROW]
    · norm_num [_TABLE2_ROWS, _DROW, _row_matches] at hm
      refine ⟨_, _select_row_band2 (by linarith [hm.1]) (by linarith [hm.2]), ?_, ?_⟩ <;>
        norm_num [_TABLE2_ROWS, _DROW]
    · norm_num [_TABLE2_ROWS, _DROW, _row_matches] at hm
      refine ⟨_, _select_row_band3 (by linarith [hm.1]) (by linarith [hm.2]), ?_, ?_⟩ <;>
        norm_num [_TABLE2_ROWS, _DROW]
    · exact absurd rfl hi4
  · refine ⟨_, _select_row_band0 (by norm_num), by norm_num, by norm_num⟩
  · refine ⟨_, _select_row_band1 (by norm_num) (by norm_num), by norm_num, by norm_num⟩
  · unfold evaluate_ieee519_current_limits
    rw [if_neg (by norm_num), if_neg (by norm_num), _select_row_band4 (by norm_num)]

/-- Witness for C2: the selection facts at IL = 100 A and Isc = 3500 A
(ratio 35, the second row). -/
theorem ieee519_row_selection_overflow_witness :
    ∃ sel, _select_row ((3500:ℝ) / 100) = .ok sel ∧
      sel.1 = (_TABLE2_ROWS.getD (1 : Fin 5) _DROW).2.2.1 ∧
      sel.2.1 = (_TABLE2_ROWS.getD (1 : Fin 5) _DROW).2.2.2 :=
  ieee519_row_selection_overflow.2.1 100 3500 (by norm_num) (by norm_num) 1 (by decide)
    (by norm_num [_TABLE2_ROWS, _DROW, _row_matches])

/-- C7 (code bug): wherever two ratios r1 <= r2 both produce a returned row,
the limits are monotone: every per-band limit and the TDD limit of the row
returned for r2 is at least the corresponding limit of the row returned for
r1. The claimed monotonicity over all ratio pairs cannot hold of the source,
because for any ratio above 1000 row selection raises OverflowError while
formatting the row label (int() of the infinite upper bound) instead of
returning the last row: at ratio 2000 no row is selected at all. -/
theorem ieee519_limits_monotone_on_ok :
    (∀ r1 r2 : ℝ, r1 ≤ r2 →
      ∀ (L1 : List ℝ) (t1 : ℝ) (lab1 : String) (L2 : List ℝ) (t2 : ℝ) (lab2 : String),
        _select_row r1 = .ok (L1, t1, lab1) → _select_row r2 = .ok (L2, t2, lab2) →
        List.Forall₂ (fun a b => a ≤ b) L1 L2 ∧ t1 ≤ t2) ∧
    _select_row 2000 = .error ("OverflowError: cannot convert float infinity to integer") := by
  constructor
  · intro r1 r2 h12 L1 t1 lab1 L2 t2 lab2 hs1 hs2
    rcases le_or_lt r1 20 with a1 | a1
    · rw [_select_row_band0 a1] at hs1
      obtain ⟨rfl, rfl, rfl⟩ : L1 = [4.0, 2.0, 1.5, 0.6, 0.3] ∧ t1 = 5.0 ∧
          lab1 = ("<") ++ "–" ++ toString (py_int 20.0) := by
        have := Except.ok.inj hs1
        exact ⟨congrArg Prod.fst this.symm, congrArg (fun p => p.2.1) this.symm,
          congrArg (fun p => p.2.2) this.symm⟩
      rcases le_or_lt r2 20 with b1 | b1
      · rw [_select_row_band0 b1] at hs2
        obtain ⟨rfl, rfl⟩ : L2 = [4.0, 2.0, 1.5, 0.6, 0.3] ∧ t2 = 5.0 := by
          have := Except.ok.inj hs2
          exact ⟨congrArg Prod.fst this.symm, congrArg (fun p => p.2.1) this.symm⟩
        exact ⟨by norm_num [List.forall₂_cons], by norm_num⟩
      · rcases le_or_lt r2 50 with b2 | b2
        · rw [_select_row_band1 b1 b2] at hs2
          obtain ⟨rfl, rfl⟩ : L2 = [7.0, 3.5, 2.5, 1.0, 0.5] ∧ t2 = 8.0 := by
            have := Except.ok.inj hs2
            exact ⟨congrArg Prod.fst this.symm, congrArg (fun p => p.2.1) this.symm⟩
          exact ⟨by norm_num [List.forall₂_cons], by norm_num⟩
        · rcases le_or_lt r2 100 with b3 | b3
          · rw [_select_row_band2 b2 b3] at hs2
            obtain ⟨rfl, rfl⟩ : L2 = [10.0, 4.5, 4.0, 1.5, 0.7] ∧ t2 = 12.0 := by
              have := Except.ok.inj hs2
              exact ⟨congrArg Prod.fst this.symm, congrArg (fun p => p.2.1) this.symm⟩
            exact ⟨by norm_num [List.forall₂_cons], by norm_num⟩
          · rcases le_or_lt r2 1000 with b4 | b4
            · rw [_select_row_band3 b3 b4] at hs2
              obtain ⟨rfl, rfl⟩ : L2 = [12.0, 5.5, 5.0, 2.0, 1.0] ∧ t2 = 15.0 := by
                have := Except.ok.inj hs2
                exact ⟨congrArg Prod.fst this.symm, congrArg (fun p => p.2.1) this.symm⟩
              exact ⟨by norm_num [List.forall₂_cons], by norm_num⟩
            · rw [_select_row_band4 b4] at hs2
              exact absurd hs2 (by simp)
    · rcases le_or_lt r1 50 with a2 | a2
      · rw [_select_row_band1 a1 a2] at hs1
        obtain ⟨rfl, rfl⟩ : L1 = [7.0, 3.5, 2.5, 1.0, 0.5] ∧ t1 = 8.0 := by
          have := Except.ok.inj hs1
          exact ⟨congrArg Prod.fst this.symm, congrArg (fun p => p.2.1) this.symm⟩
        rcases le_or_lt r2 50 with b2 | b2
        · rw [_select_row_band1 (by linarith) b2] at hs2
          obtain ⟨rfl, rfl⟩ : L2 = [7.0, 3.5, 2.5, 1.0, 0.5] ∧ t2 = 8.0 := by
            have := Except.ok.inj hs2
            exact ⟨congrArg Prod.fst this.symm, congrArg (fun p => p.2.1) this.symm⟩
          exact ⟨by norm_num [List.forall₂_cons], by norm_num⟩
        · rcases le_or_lt r2 100 with b3 | b3
          · rw [_select_row_band2 b2 b3] at hs2
            obtain ⟨rfl, rfl⟩ : L2 = [10.0, 4.5, 4.0, 1.5, 0.7] ∧ t2 = 12.0 := by
              have := Except.ok.inj hs2
              exact ⟨congrArg Prod.fst this.symm, congrArg (fun p => p.2.1) this.symm⟩
            exact ⟨by norm_num [List.forall₂_cons], by norm_num⟩
          · rcases le_or_lt r2 1000 with b4 | b4
            · rw [_select_row_band3 b3 b4] at hs2
              obtain ⟨rfl, rfl⟩ : L2 = [12.0, 5.5, 5.0, 2.0, 1.0] ∧ t2 = 15.0 := by
                have := Except.ok.inj hs2
                exact ⟨congrArg Prod.fst this.symm, congrArg (fun p => p.2.1) this.symm⟩
              exact ⟨by norm_num [List.forall₂_cons], by norm_num⟩
            · rw [_select_row_band4 b4] at hs2
              exact absurd hs2 (by simp)
      · rcases le_or_lt r1 100 with a3 | a3
        · rw [_select_row_band2 a2 a3] at hs1
          obtain ⟨rfl, rfl⟩ : L1 = [10.0, 4.5, 4.0, 1.5, 0.7] ∧ t1 = 12.0 := by
            have := Except.ok.inj hs1
            exact ⟨congrArg Prod.fst this.symm, congrArg (fun p => p.2.1) this.symm⟩
          rcases le_or_lt r2 100 with b3 | b3
          · rw [_select_row_band2 (by linarith) b3] at hs2
            obtain ⟨rfl, rfl⟩ : L2 = [10.0, 4.5, 4.0, 1.5, 0.7] ∧ t2 = 12.0 := by
              have := Except.ok.inj hs2
              exact ⟨congrArg Prod.fst this.symm, congrArg (fun p => p.2.1) this.symm⟩
            exact ⟨by norm_num [List.forall₂_cons], by norm_num⟩
          · rcases le_or_lt r2 1000 with b4 | b4
            · rw [_select_row_band3 b3 b4] at hs2
              obtain ⟨rfl, rfl⟩ : L2 = [12.0, 5.5, 5.0, 2.0, 1.0] ∧ t2 = 15.0 := by
                have := Except.ok.inj hs2
                exact ⟨congrArg Prod.fst this.symm, congrArg (fun p => p.2.1) this.symm⟩
              exact ⟨by norm_num [List.forall₂_cons], by norm_num⟩
            · rw [_select_row_band4 b4] at hs2
              exact absurd hs2 (by simp)
        · rcases le_or_lt r1 1000 with a4 | a4
          · rw [_select_row_band3 a3 a4] at hs1
            obtain ⟨rfl, rfl⟩ : L1 = [12.0, 5.5, 5.0, 2.0, 1.0] ∧ t1 = 15.0 := by
              have := Except.ok.inj hs1
              exact ⟨congrArg Prod.fst this.symm, congrArg (fun p => p.2.1) this.symm⟩
            rcases le_or_lt r2 1000 with b4 | b4
            · rw [_select_row_band3 (by linarith) b4] at hs2
              obtain ⟨rfl, rfl⟩ : L2 = [12.0, 5.5, 5.0, 2.0, 1.0] ∧ t2 = 15.0 := by
                have := Except.ok.inj hs2
                exact ⟨congrArg Prod.fst this.symm, congrArg (fun p => p.2.1) this.symm⟩
              exact ⟨by norm_num [List.forall₂_cons], by norm_num⟩
            · rw [_select_row_band4 b4] at hs2
              exact absurd hs2 (by simp)
          · rw [_select_row_band4 a4] at hs1
            exact absurd hs1 (by simp)
  · exact _select_row_band4 (by norm_num)

/-- Witness for C7 at the ratios 10 and 300 (first and fourth row, both of
which return). -/
theorem ieee519_limits_monotone_on_ok_witness :
    List.Forall₂ (fun a b => a ≤ b)
      ([4.0, 2.0, 1.5, 0.6, 0.3] : List ℝ) [12.0, 5.5, 5.0, 2.0, 1.0] ∧
    (5.0:ℝ) ≤ 15.0 :=
  ieee519_limits_monotone_on_ok.1 10 300 (by norm_num) _ _ _ _ _ _
    (_select_row_band0 (by norm_num)) (_select_row_band3 (by norm_num) (by norm_num))

/-- Bool form of the classification condition applied by the major/minor split
loops: low-order violations are major, the two small high-order overage shapes
are minor, everything else is major. -/
noncomputable def _is_major (v : HarmonicLimitCheck) : Bool :=
  decide (v.h ≤ 13) ||
    (!decide (23 ≤ v.h ∧ v.ih_percent_of_il - v.limit_percent_of_il ≤ 1.0) &&
     !decide (17 ≤ v.h ∧ v.ih_percent_of_il - v.limit_percent_of_il ≤ 0.5))

theorem _foldl_split_eq_filter {C : Type} (step : (List C × List C) → C → List C × List C)
    (p : C → Bool)
    (hstep : ∀ acc v, step acc v =
      if p v then (acc.1 ++ [v], acc.2) else (acc.1, acc.2 ++ [v])) :
    ∀ (vs : List C) (acc : List C × List C),
      vs.foldl step acc = (acc.1 ++ vs.filter p, acc.2 ++ vs.filter (fun v => ! p v)) := by
  intro vs
  induction vs with
  | nil => intro acc; simp
  | cons v rest ih =>
    intro acc
    rw [List.foldl_cons, hstep]
    by_cases hp : p v = true
    · rw [if_pos hp, ih]
      simp [List.filter_cons, hp]
    · rw [if_neg (by simp_all), ih]
      simp [List.filter_cons, hp]

theorem _split_major_minor_eq_filter (ieee : IEEE519CurrentReport) :
    _split_major_minor ieee =
      (ieee.worst_violations.filter _is_major,
       ieee.worst_violations.filter (fun v => ! _is_major v)) := by
  unfold TopologyCompare._split_major_minor
  rw [_foldl_split_eq_filter _ _is_major ?_ ieee.worst_violations ([], [])]
  · simp
  · intro acc v
    simp only [_is_major]
    by_cases h13 : v.h ≤ 13
    · rw [if_pos h13, if_pos (by simp [h13])]
    · by_cases h23 : 23 ≤ v.h ∧ v.ih_percent_of_il - v.limit_percent_of_il ≤ 1.0
      · rw [if_neg h13, if_pos h23, if_neg (by simp [h13, h23])]
      · by_cases h17 : 17 ≤ v.h ∧ v.ih_percent_of_il - v.limit_percent_of_il ≤ 0.5
        · rw [if_neg h13, if_neg h23, if_pos h17, if_neg (by simp [h13, h23, h17])]
        · have hp : (decide (v.h ≤ 13) ||
              (!decide (23 ≤ v.h ∧ v.ih_percent_of_il - v.limit_percent_of_il ≤ 1.0) &&
               !decide (17 ≤ v.h ∧ v.ih_percent_of_il - v.limit_percent_of_il ≤ 0.5))) = true := by
            simp only [Bool.or_eq_true, Bool.and_eq_true, Bool.not_eq_true',
              decide_eq_true_eq, decide_eq_false_iff_not]
            exact Or.inr ⟨h23, h17⟩
          rw [if_neg h13, if_neg h23, if_neg h17, if_pos hp]

theorem _is_major_iff (v : HarmonicLimitCheck) :
    _is_major v = true ↔
      (v.h ≤ 13 ∨ ¬ ((23 ≤ v.h ∧ _over v ≤ 1.0) ∨ (17 ≤ v.h ∧ _over v ≤ 0.5))) := by
  simp only [_is_major, _over, Bool.or_eq_true, Bool.and_eq_true, Bool.not_eq_true',
    decide_eq_true_eq, decide_eq_false_iff_not]
  tauto

theorem _is_major_false_iff (v : HarmonicLimitCheck) :
    _is_major v = false ↔
      ((23 ≤ v.h ∧ _over v ≤ 1.0) ∨ (17 ≤ v.h ∧ _over v ≤ 0.5)) := by
  rw [Bool.eq_false_iff, Ne, _is_major_iff]
  constructor
  · intro h
    push_neg at h
    exact h.2
  · intro hc
    push_neg
    refine ⟨?_, hc⟩
    rcases hc with ⟨h1, _⟩ | ⟨h1, _⟩ <;> omega

/-- C5: the worst-violation list of a report is split into major and minor
exactly as specified: a violation at order at most 13 is major; one at order at
least 23 with overage at most 1.0 is minor; one at order at least 17 with
overage at most 0.5 is minor; every other violation is major; each violation
lands in exactly one of the two lists, and the split of the comparison engine
coincides with the split of the mitigation module. -/
theorem split_major_minor_partition :
    (∀ ieee : IEEE519CurrentReport,
      _split_major_minor ieee = _split_major_minor_violations ieee) ∧
    (∀ (ieee : IEEE519CurrentReport) (v : HarmonicLimitCheck),
      v ∈ ieee.worst_violations →
      ((v ∈ (_split_major_minor ieee).1 ↔
         (v.h ≤ 13 ∨ ¬ ((23 ≤ v.h ∧ _over v ≤ 1.0) ∨ (17 ≤ v.h ∧ _over v ≤ 0.5)))) ∧
       (v ∈ (_split_major_minor ieee).2 ↔
         ((23 ≤ v.h ∧ _over v ≤ 1.0) ∨ (17 ≤ v.h ∧ _over v ≤ 0.5))) ∧
       ¬ (v ∈ (_split_major_minor ieee).1 ∧ v ∈ (_split_major_minor ieee).2))) := by
  constructor
  · intro ieee; rfl
  · intro ieee v hv
    rw [_split_major_minor_eq_filter]
    simp only [List.mem_filter, hv, true_and, Bool.not_eq_true']
    exact ⟨_is_major_iff v, _is_major_false_iff v,
      fun hb => by rw [hb.1] at hb; exact absurd hb.2 (by simp)⟩

/-- Witness for C5: a single high-order violation at order 25 with overage 0.5
is classified minor and not major. -/
theorem split_major_minor_partition_witness :
    ((⟨25, 1.5, 1.0, false, "23–34", ""⟩ : HarmonicLimitCheck) ∈
        (_split_major_minor
          { volt_class := "120V-69kV", isc_a := 1, il_a := 1, isc_over_il := 1,
            category_label := "", tdd_percent := 0, tdd_limit_percent := 5,
            tdd_pass := true, checks := [⟨25, 1.5, 1.0, false, "23–34", ""⟩],
            worst_violations := [⟨25, 1.5, 1.0, false, "23–34", ""⟩],
            risk_level := "LOW", interpretation := [] }).1 ↔
      ((25:ℤ) ≤ 13 ∨
        ¬ ((23 ≤ (25:ℤ) ∧ _over ⟨25, 1.5, 1.0, false, "23–34", ""⟩ ≤ 1.0) ∨
           (17 ≤ (25:ℤ) ∧ _over ⟨25, 1.5, 1.0, false, "23–34", ""⟩ ≤ 0.5)))) ∧
    ((⟨25, 1.5, 1.0, false, "23–34", ""⟩ : HarmonicLimitCheck) ∈
        (_split_major_minor
          { volt_class := "120V-69kV", isc_a := 1, il_a := 1, isc_over_il := 1,
            category_label := "", tdd_percent := 0, tdd_limit_percent := 5,
            tdd_pass := true, checks := [⟨25, 1.5, 1.0, false, "23–34", ""⟩],
            worst_violations := [⟨25, 1.5, 1.0, false, "23–34", ""⟩],
            risk_level := "LOW", interpretation := [] }).2 ↔
      ((23 ≤ (25:ℤ) ∧ _over ⟨25, 1.5, 1.0, false, "23–34", ""⟩ ≤ 1.0) ∨
       (17 ≤ (25:ℤ) ∧ _over ⟨25, 1.5, 1.0, false, "23–34", ""⟩ ≤ 0.5))) ∧
    ¬ ((⟨25, 1.5, 1.0, false, "23–34", ""⟩ : HarmonicLimitCheck) ∈
        (_split_major_minor
          { volt_class := "120V-69kV", isc_a := 1, il_a := 1, isc_over_il := 1,
            category_label := "", tdd_percent := 0, tdd_limit_percent := 5,
            tdd_pass := true, checks := [⟨25, 1.5, 1.0, false, "23–34", ""⟩],
            worst_violations := [⟨25, 1.5, 1.0, false, "23–34", ""⟩],
            risk_level := "LOW", interpretation := [] }).1 ∧
       (⟨25, 1.5, 1.0, false, "23–34", ""⟩ : HarmonicLimitCheck) ∈
        (_split_major_minor
          { volt_class := "120V-69kV", isc_a := 1, il_a := 1, isc_over_il := 1,
            category_label := "", tdd_percent := 0, tdd_limit_percent := 5,
            tdd_pass := true, checks := [⟨25, 1.5, 1.0, false, "23–34", ""⟩],
            worst_violations := [⟨25, 1.5, 1.0, false, "23–34", ""⟩],
            risk_level := "LOW", interpretation := [] }).2) :=
  split_major_minor_partition.2
    { volt_class := "120V-69kV", isc_a := 1, il_a := 1, isc_over_il := 1,
      category_label := "", tdd_percent := 0, tdd_limit_percent := 5,
      tdd_pass := true, checks := [⟨25, 1.5, 1.0, false, "23–34", ""⟩],
      worst_violations := [⟨25, 1.5, 1.0, false, "23–34", ""⟩],
      risk_level := "LOW", interpretation := [] }
    ⟨25, 1.5, 1.0, false, "23–34", ""⟩ (by simp)

/-- C6: applying an attenuation curve returns a new spectrum in which every
entry is the input percent multiplied by the curve value at that harmonic
order (the input, a pure value here, is not mutated); a spectrum holding only
the 5th at 20 percent attenuated by the tuned filter curve yields the 5th at
5 percent, the tuned factor at the 5th being 0.25. -/
theorem apply_attenuation_pointwise :
    (∀ (sp : List (ℤ × ℝ)) (att : ℤ → ℝ),
      (apply_attenuation sp att).length = sp.length ∧
      ∀ i : ℕ, (apply_attenuation sp att)[i]? =
        (sp[i]?).map (fun p => (p.1, p.2 * att p.1))) ∧
    apply_attenuation [(5, 20.0)] attenuation_tuned_5_7 = [(5, 5.0)] ∧
    attenuation_tuned_5_7 5 = 0.25 := by
  refine ⟨fun sp att => ⟨?_, fun i => ?_⟩, ?_, ?_⟩
  · simp [apply_attenuation]
  · simp [apply_attenuation, List.getElem?_map]
  · norm_num [apply_attenuation, attenuation_tuned_5_7]
  · norm_num [attenuation_tuned_5_7]

/-- C8: the synthesizer is deterministic: two calls on componentwise identical
inputs (frequency, fundamental RMS, harmonic table, cycles, samples per cycle,
fundamental phase, phase mode, seed) return identical (t, i, fs) triples; the
phase mode is arbitrary, so the random mode is covered, its draws being a pure
function of the caller-supplied seed. -/
theorem synthesize_deterministic
    (f_hz f_hz2 i1 i12 : ℝ) (tbl tbl2 : List (ℤ × ℝ)) (cycles cycles2 spc spc2 : ℕ)
    (ph ph2 : ℝ) (mode mode2 : String) (seed seed2 : ℕ)
    (h1 : f_hz = f_hz2) (h2 : i1 = i12) (h3 : tbl = tbl2) (h4 : cycles = cycles2)
    (h5 : spc = spc2) (h6 : ph = ph2) (h7 : mode = mode2) (h8 : seed = seed2) :
    synthesize_current_time_series f_hz i1 tbl cycles spc ph mode seed =
      synthesize_current_time_series f_hz2 i12 tbl2 cycles2 spc2 ph2 mode2 seed2 := by
  subst h1 h2 h3 h4 h5 h6 h7 h8
  rfl

/-- Witness for C8: two identical calls in the random phase mode agree. -/
theorem synthesize_deterministic_witness :
    synthesize_current_time_series 60 10 [(5, 20.0), (7, 14.0)] 2 64 0 "random" 17 =
      synthesize_current_time_series 60 10 [(5, 20.0), (7, 14.0)] 2 64 0 "random" 17 :=
  synthesize_deterministic 60 60 10 10 [(5, 20.0), (7, 14.0)] [(5, 20.0), (7, 14.0)]
    2 2 64 64 0 0 "random" "random" 17 17 rfl rfl rfl rfl rfl rfl rfl rfl

theorem _build_checks_mem {limits : List ℝ} {f : ℝ} {sp : List (ℤ × ℝ)}
    {c : HarmonicLimitCheck} (hc : c ∈ _build_checks limits f sp) :
    ∃ b : Fin 5, _band_index c.h = some b ∧
      c.limit_percent_of_il =
        (if c.h % 2 = 0 then limits.getD b 0 * f else limits.getD b 0) ∧
      (c.pass_limit = true ↔ c.ih_percent_of_il ≤ c.limit_percent_of_il + 1e-12) := by
  induction sp with
  | nil => simp [_build_checks] at hc
  | cons hd rest ih =>
    rcases hd with ⟨h, pct⟩
    unfold _build_checks at hc
    cases hb : _band_index h with
    | none =>
      rw [hb] at hc
      exact ih hc
    | some b =>
      rw [hb] at hc
      rcases List.mem_cons.mp hc with hceq | hcm
      · subst hceq
        exact ⟨b, hb, rfl, by simp⟩
      · exact ih hcm

/-- C4: in every per-harmonic check produced by the evaluator, the limit at an
even order is the selected row band limit times the even-harmonic factor, the
limit at an odd order is the band limit unchanged, and the check passes exactly
when the measured percent is at most the applicable limit plus the 1e-12
tolerance (a returned report implies the row selection returned, and the
limits are those of that returned row). -/
theorem evaluate_even_odd_limits :
    ∀ (sp : List (ℤ × ℝ)) (il isc : ℝ) (vc : String) (f : ℝ)
      (rpt : IEEE519CurrentReport),
      evaluate_ieee519_current_limits sp il isc vc f = .ok rpt →
      ∀ c ∈ rpt.checks, ∃ b : Fin 5, ∃ sel : List ℝ × ℝ × String,
        _select_row (isc / il) = .ok sel ∧
        _band_index c.h = some b ∧
        c.limit_percent_of_il =
          (if c.h % 2 = 0 then sel.1.getD b 0 * f else sel.1.getD b 0) ∧
        (c.pass_limit = true ↔ c.ih_percent_of_il ≤ c.limit_percent_of_il + 1e-12) := by
  intro sp il isc vc f rpt hok c hc
  unfold evaluate_ieee519_current_limits at hok
  split at hok
  · exact absurd hok (by simp)
  split at hok
  · exact absurd hok (by simp)
  cases hsel : _select_row (isc / il) with
  | error e => rw [hsel] at hok; exact absurd hok (by simp)
  | ok sel =>
    rw [hsel] at hok
    dsimp only at hok
    have hrpt : rpt = _report sp il isc vc f sel := (Except.ok.inj hok).symm
    subst hrpt
    simp only [_report] at hc
    rw [List.Perm.mem_iff (List.mergeSort_perm _ _)] at hc
    obtain ⟨b, hb, hlim, hpass⟩ := _build_checks_mem hc
    exact ⟨b, sel, rfl, hb, hlim, hpass⟩

theorem _band_index_isSome_iff (h : ℤ) :
    (_band_index h).isSome = true ↔ (2 ≤ h ∧ h ≤ 50) := by
  unfold _band_index
  split_ifs <;> simp <;> omega

theorem _sum_sq_eq_thd_sum (sp : List (ℤ × ℝ)) : _sum_sq sp = _thd_sum sp 50 := by
  induction sp with
  | nil => rfl
  | cons hd rest ih =>
    rcases hd with ⟨h, pct⟩
    unfold _sum_sq _thd_sum
    rw [ih]
    congr 1
    by_cases hb : 2 ≤ h ∧ h ≤ 50
    · rw [if_pos ((_band_index_isSome_iff h).mpr hb), if_pos hb]
    · rw [if_neg (fun hs => hb ((_band_index_isSome_iff h).mp hs)), if_neg hb]

/-- C9: the TDD percent reported by the evaluator on a spectrum whose orders
all lie in [2, 50] is exactly 100 times thd_i_from_pct of that spectrum, and
consequently every ScenarioResult built by run_scenario from such a spectrum
has thd_i_percent equal to ieee519.tdd_percent. -/
theorem tdd_equals_thd :
    (∀ (sp : List (ℤ × ℝ)) (il isc : ℝ) (vc : String) (f : ℝ)
      (rpt : IEEE519CurrentReport),
      (∀ p ∈ sp, 2 ≤ p.1 ∧ p.1 ≤ 50) →
      evaluate_ieee519_current_limits sp il isc vc f = .ok rpt →
      rpt.tdd_percent = 100 * thd_i_from_pct sp 50) ∧
    (∀ (name : String) (sp : List (ℤ × ℝ)) (il isc : ℝ) (s : ScenarioResult),
      (∀ p ∈ sp, 2 ≤ p.1 ∧ p.1 ≤ 50) →
      run_scenario name sp il isc = .ok s →
      s.thd_i_percent = s.ieee519.tdd_percent ∧
      s.ieee519.tdd_percent = 100 * thd_i_from_pct sp 50) := by
  have hrpt : ∀ (sp : List (ℤ × ℝ)) (il isc : ℝ) (vc : String) (f : ℝ)
      (sel : List ℝ × ℝ × String),
      (_report sp il isc vc f sel).tdd_percent = 100 * thd_i_from_pct sp 50 := by
    intro sp il isc vc f sel
    show Real.sqrt (_sum_sq sp) * 100.0 = 100 * thd_i_from_pct sp 50
    rw [_sum_sq_eq_thd_sum]
    unfold thd_i_from_pct
    ring
  constructor
  · intro sp il isc vc f rpt _hrange hok
    unfold evaluate_ieee519_current_limits at hok
    split at hok
    · exact absurd hok (by simp)
    split at hok
    · exact absurd hok (by simp)
    cases hsel : _select_row (isc / il) with
    | error e => rw [hsel] at hok; exact absurd hok (by simp)
    | ok sel =>
      rw [hsel] at hok
      dsimp only at hok
      rw [← Except.ok.inj hok]
      exact hrpt sp il isc vc f sel
  · intro name sp il isc s _hrange hok
    unfold run_scenario at hok
    cases hev : evaluate_ieee519_current_limits sp il isc ("120V-69kV") 0.25 with
    | error e => rw [hev] at hok; exact absurd hok (by simp)
    | ok rpt =>
      rw [hev] at hok
      dsimp only at hok
      have hs : s = _ := (Except.ok.inj hok).symm
      subst hs
      have h1 : rpt.tdd_percent = 100 * thd_i_from_pct sp 50 := by
        unfold evaluate_ieee519_current_limits at hev
        split at hev
        · exact absurd hev (by simp)
        split at hev
        · exact absurd hev (by simp)
        cases hsel : _select_row (isc / il) with
        | error e => rw [hsel] at hev; exact absurd hev (by simp)
        | ok sel =>
          rw [hsel] at hev
          dsimp only at hev
          rw [← Except.ok.inj hev]
          exact hrpt sp il isc _ _ sel
      constructor
      · show thd_i_from_pct sp 50 * 100.0 = rpt.tdd_percent
        rw [h1]; ring
      · exact h1

/-- Restriction of a spectrum to the evaluated harmonic range [2, 50]; entries
outside it are exactly the ones both the current-limit evaluator and the
voltage-distortion estimator skip. -/
def _in_eval_range (sp : List (ℤ × ℝ)) : List (ℤ × ℝ) :=
  sp.filter (fun p => decide (2 ≤ p.1) && decide (p.1 ≤ 50))

theorem _build_checks_in_range (L : List ℝ) (f : ℝ) (sp : List (ℤ × ℝ)) :
    _build_checks L f (_in_eval_range sp) = _build_checks L f sp := by
  induction sp with
  | nil => rfl
  | cons hd rest ih =>
    rcases hd with ⟨h, pct⟩
    have hfold : List.filter (fun p => decide (2 ≤ p.1) && decide (p.1 ≤ 50)) rest =
        _in_eval_range rest := rfl
    by_cases hb : 2 ≤ h ∧ h ≤ 50
    · rw [_in_eval_range, List.filter_cons_of_pos (by simp [hb.1, hb.2]), hfold]
      conv_lhs => unfold _build_checks
      conv_rhs => unfold _build_checks
      cases hb2 : _band_index h with
      | none => exact ih
      | some b => exact congrArg₂ List.cons rfl ih
    · rw [_in_eval_range, List.filter_cons_of_neg (by simpa using fun h2 h50 => hb ⟨h2, h50⟩), hfold]
      conv_rhs => unfold _build_checks
      cases hb2 : _band_index h with
      | none => exact ih
      | some b => exact absurd ((_band_index_isSome_iff h).mp (by simp [hb2])) hb

theorem _sum_sq_in_range (sp : List (ℤ × ℝ)) : _sum_sq (_in_eval_range sp) = _sum_sq sp := by
  induction sp with
  | nil => rfl
  | cons hd rest ih =>
    rcases hd with ⟨h, pct⟩
    have hfold : List.filter (fun p => decide (2 ≤ p.1) && decide (p.1 ≤ 50)) rest =
        _in_eval_range rest := rfl
    by_cases hb : 2 ≤ h ∧ h ≤ 50
    · rw [_in_eval_range, List.filter_cons_of_pos (by simp [hb.1, hb.2]), hfold]
      conv_lhs => unfold _sum_sq
      conv_rhs => unfold _sum_sq
      exact congrArg₂ (fun a b => a + b) rfl ih
    · rw [_in_eval_range, List.filter_cons_of_neg (by simpa using fun h2 h50 => hb ⟨h2, h50⟩), hfold]
      conv_rhs => unfold _sum_sq
      rw [show (_band_index h) = none from
        Option.not_isSome_iff_eq_none.mp (fun hs => hb ((_band_index_isSome_iff h).mp hs))]
      simpa using ih

theorem _thdv_loop_in_range (i1 : ℝ) (src : SourceImpedanceModel) (sp : List (ℤ × ℝ)) :
    _thdv_loop i1 src 50 (_in_eval_range sp) = _thdv_loop i1 src 50 sp := by
  induction sp with
  | nil => rfl
  | cons hd rest ih =>
    rcases hd with ⟨h, pct⟩
    have hfold : List.filter (fun p => decide (2 ≤ p.1) && decide (p.1 ≤ 50)) rest =
        _in_eval_range rest := rfl
    by_cases hb : 2 ≤ h ∧ h ≤ 50
    · rw [_in_eval_range, List.filter_cons_of_pos (by simp [hb.1, hb.2]), hfold]
      conv_lhs => unfold _thdv_loop
      conv_rhs => unfold _thdv_loop
      rw [if_pos hb, if_pos hb]
      cases hz : z_mag_at_harmonic src.z1_ohm h src.freq_exp with
      | error e => rfl
      | ok zh => rw [ih]
    · rw [_in_eval_range, List.filter_cons_of_neg (by simpa using fun h2 h50 => hb ⟨h2, h50⟩), hfold]
      conv_rhs => unfold _thdv_loop
      rw [if_neg hb]
      exact ih

theorem _report_in_range (sp : List (ℤ × ℝ)) (il isc : ℝ) (vc : String) (f : ℝ)
    (sel : List ℝ × ℝ × String) :
    _report (_in_eval_range sp) il isc vc f sel = _report sp il isc vc f sel := by
  unfold _report
  simp only [_build_checks_in_range, _sum_sq_in_range]

/-- C10: spectrum entries with order below 2 or above 50 contribute nothing and
cause no error: the evaluator produces identical reports (and only in-range
checks) with and without them, the voltage-distortion estimator at its default
range bound 50 produces identical results with and without them, and dropping
the h = 53 entry of the 18-pulse preset changes neither result. -/
theorem out_of_range_entries_ignored :
    (∀ (sp : List (ℤ × ℝ)) (il isc : ℝ) (vc : String) (f : ℝ),
      evaluate_ieee519_current_limits (_in_eval_range sp) il isc vc f =
        evaluate_ieee519_current_limits sp il isc vc f) ∧
    (∀ (sp : List (ℤ × ℝ)) (i1 v1 : ℝ) (src : SourceImpedanceModel) (lim : ℝ),
      thdv_from_spectrum (_in_eval_range sp) i1 v1 src 50 lim =
        thdv_from_spectrum sp i1 v1 src 50 lim) ∧
    (∀ (sp : List (ℤ × ℝ)) (il isc : ℝ) (vc : String) (f : ℝ)
      (rpt : IEEE519CurrentReport),
      evaluate_ieee519_current_limits sp il isc vc f = .ok rpt →
      ∀ c ∈ rpt.checks, 2 ≤ c.h ∧ c.h ≤ 50) ∧
    ((harmonic_presets.lookup "18pulse_typical").map
        (fun p => p.harmonic_pct_of_fund_rms) =
      some [(17, 5.0), (19, 4.0), (35, 2.0), (37, 1.5), (53, 1.0)] ∧
     _in_eval_range [(17, 5.0), (19, 4.0), (35, 2.0), (37, 1.5), (53, 1.0)] =
      [(17, 5.0), (19, 4.0), (35, 2.0), (37, 1.5)]) := by
  refine ⟨?_, ?_, ?_, ?_, ?_⟩
  · intro sp il isc vc f
    unfold evaluate_ieee519_current_limits
    simp only [_report_in_range]
  · intro sp i1 v1 src lim
    unfold thdv_from_spectrum
    simp only [_thdv_loop_in_range]
  · intro sp il isc vc f rpt hok c hc
    obtain ⟨b, sel, -, hb, -, -⟩ := evaluate_even_odd_limits sp il isc vc f rpt hok c hc
    exact (_band_index_isSome_iff c.h).mp (by simp [hb])
  · simp [harmonic_presets, List.lookup]
  · norm_num [_in_eval_range]

/-- Spectrum used by several concrete witnesses: only the 5th harmonic, at 20
percent of fundamental. -/
noncomputable def _w_spectrum : List (ℤ × ℝ) := [((5:ℤ), (20.0:ℝ))]

/-- Check produced by the evaluator on _w_spectrum at ratio 20. -/
noncomputable def _w_check : HarmonicLimitCheck :=
  { h := 5, ih_percent_of_il := 20.0, limit_percent_of_il := 4.0,
    pass_limit := decide ((20.0:ℝ) ≤ 4.0 + 1e-12), band := "2–10", note := "" }

/-- Row data returned by _select_row at ratio 20, used by the witnesses. -/
noncomputable def _w_sel : List ℝ × ℝ × String :=
  ([4.0, 2.0, 1.5, 0.6, 0.3], 5.0, ("<") ++ "–" ++ toString (py_int 20.0))

theorem _w_evaluate_ok :
    evaluate_ieee519_current_limits _w_spectrum 100 2000 ("120V-69kV") 0.25 =
      .ok (_report _w_spectrum 100 2000 ("120V-69kV") 0.25 _w_sel) := by
  unfold evaluate_ieee519_current_limits
  rw [if_neg (by norm_num), if_neg (by norm_num), _select_row_band0 (by norm_num)]
  rfl

theorem _w_checks :
    (_report _w_spectrum 100 2000 ("120V-69kV") 0.25 _w_sel).checks = [_w_check] := by
  simp only [_report, _w_sel]
  have hb : _build_checks [4.0, 2.0, 1.5, 0.6, 0.3] 0.25 _w_spectrum = [_w_check] := by
    unfold _w_spectrum _build_checks _w_check
    norm_num [_band_index, _BAND_NAMES, List.getD]
    rfl
  rw [hb, List.mergeSort_singleton]

/-- Witness for C4: the single check on _w_spectrum at ratio 20 satisfies the
even/odd limit and pass characterization against the returned row. -/
theorem evaluate_even_odd_limits_witness :
    ∃ b : Fin 5, ∃ sel : List ℝ × ℝ × String,
      _select_row ((2000:ℝ) / 100) = .ok sel ∧
      _band_index _w_check.h = some b ∧
      _w_check.limit_percent_of_il =
        (if _w_check.h % 2 = 0 then sel.1.getD b 0 * 0.25 else sel.1.getD b 0) ∧
      (_w_check.pass_limit = true ↔
        _w_check.ih_percent_of_il ≤ _w_check.limit_percent_of_il + 1e-12) :=
  evaluate_even_odd_limits _w_spectrum 100 2000 ("120V-69kV") 0.25
    (_report _w_spectrum 100 2000 ("120V-69kV") 0.25 _w_sel) _w_evaluate_ok _w_check
    (by rw [_w_checks]; exact List.mem_singleton.mpr rfl)

/-- Witness for C9: on _w_spectrum the scenario THD-I percent equals the
reported TDD percent, both 100 times thd_i_from_pct. -/
theorem tdd_equals_thd_witness :
    ∃ s : ScenarioResult, run_scenario ("baseline") _w_spectrum 100 2000 = .ok s ∧
      s.thd_i_percent = s.ieee519.tdd_percent ∧
      s.ieee519.tdd_percent = 100 * thd_i_from_pct _w_spectrum 50 := by
  obtain ⟨s, hs⟩ : ∃ s, run_scenario ("baseline") _w_spectrum 100 2000 = .ok s := by
    unfold run_scenario
    rw [_w_evaluate_ok]
    exact ⟨_, rfl⟩
  exact ⟨s, hs, tdd_equals_thd.2 ("baseline") _w_spectrum 100 2000 s
    (by intro p hp; simp [_w_spectrum] at hp; subst hp; norm_num) hs⟩

/-- Witness for C10: the check produced for the in-range entry has its order
inside [2, 50]. -/
theorem out_of_range_entries_ignored_witness :
    2 ≤ _w_check.h ∧ _w_check.h ≤ 50 :=
  out_of_range_entries_ignored.2.2.1 _w_spectrum 100 2000 ("120V-69kV") 0.25
    (_report _w_spectrum 100 2000 ("120V-69kV") 0.25 _w_sel) _w_evaluate_ok _w_check
    (by rw [_w_checks]; exact List.mem_singleton.mpr rfl)

theorem _mergeSort_rank_sorted (l : List (ScenarioResult × VoltageDistortionResult)) :
    List.Sorted (fun p q => _rank_key p ≤ _rank_key q)
      (l.mergeSort (fun p q => decide (_rank_key p ≤ _rank_key q))) := by
  have h := @List.sorted_mergeSort _ (fun p q => decide (_rank_key p ≤ _rank_key q))
    (fun a b c hab hbc => by
      simp only [decide_eq_true_eq] at hab hbc ⊢
      exact le_trans hab hbc)
    (fun a b => by
      simp only [Bool.or_eq_true, decide_eq_true_eq]
      exact le_total _ _)
    l
  exact List.Pairwise.imp (fun hab => by simpa using hab) h

theorem _lex_front_le {a1 b1 c1 a2 b2 c2 : ℕ} {x1 x2 : Lex (ℝ × Lex (ℝ × ℝ))}
    (h : toLex (a1, toLex (b1, toLex (c1, x1))) ≤ toLex (a2, toLex (b2, toLex (c2, x2))))
    (h2 : a2 = 0 ∧ b2 = 0 ∧ c2 = 0) : a1 = 0 ∧ b1 = 0 ∧ c1 = 0 := by
  obtain ⟨ha2, hb2, hc2⟩ := h2
  subst ha2
  subst hb2
  subst hc2
  rw [Prod.Lex.le_iff] at h
  rcases h with h | ⟨ha, h⟩
  · exact absurd h (Nat.not_lt_zero _)
  rw [Prod.Lex.le_iff] at h
  rcases h with h | ⟨hb, h⟩
  · exact absurd h (Nat.not_lt_zero _)
  rw [Prod.Lex.le_iff] at h
  rcases h with h | ⟨hc, h⟩
  · exact absurd h (Nat.not_lt_zero _)
  exact ⟨ha, hb, hc⟩

/-- Combined practical compliance of an output row: voltage-distortion pass and
practical current pass (TDD pass with zero major violations). -/
noncomputable def _passes_all (row : ScenarioRow) : Bool :=
  row.thdv_pass && row.practical_pass

theorem _passes_all_iff_key (p : ScenarioResult × VoltageDistortionResult) (r : ℝ) :
    _passes_all (_scenario_row p.1 p.2 r) = true ↔
      ((if p.2.pass_limit then (0:ℕ) else 1) = 0 ∧
       (if p.1.ieee519.tdd_pass then (0:ℕ) else 1) = 0 ∧
       (_split_major_minor p.1.ieee519).1.length = 0) := by
  unfold _passes_all _scenario_row
  cases hv : p.2.pass_limit <;> cases ht : p.1.ieee519.tdd_pass <;> simp [hv, ht]

/-- C1: every list returned by compare_ups_topologies is the image of a list of
enriched scenarios sorted in non-decreasing lexicographic order of the rank key
(voltage pass, TDD pass, major count, severity, THDv percent, heating proxy);
consequently the rows passing voltage, TDD and zero-major form a leading
segment: no failing row ever precedes a passing row. -/
theorem compare_output_ranked :
    ∀ (load_pu il_a vll_v sc_mva : ℝ) (tks fks : Option (List String))
      (ptm : Option (List (String × List String))) (lim zexp : ℝ)
      (out : List ScenarioRow),
      compare_ups_topologies load_pu il_a vll_v sc_mva tks fks ptm lim zexp = .ok out →
      (∃ (r : ℝ) (pairs : List (ScenarioResult × VoltageDistortionResult)),
        List.Sorted (fun p q => _rank_key p ≤ _rank_key q) pairs ∧
        out = pairs.map (fun p => _scenario_row p.1 p.2 r)) ∧
      (∀ (i j : ℕ) (hi : i < out.length) (hj : j < out.length), i ≤ j →
        _passes_all (out.get ⟨j, hj⟩) = true → _passes_all (out.get ⟨i, hi⟩) = true) := by
  intro load_pu il_a vll_v sc_mva tks fks ptm lim zexp out hok
  unfold compare_ups_topologies at hok
  dsimp only at hok
  cases hA : isc_over_il_from_sc_mva vll_v sc_mva il_a with
  | error e => rw [hA] at hok; exact absurd hok (by simp)
  | ok r =>
  rw [hA] at hok
  dsimp only at hok
  cases hB : source_from_sc_mva vll_v sc_mva zexp with
  | error e => rw [hB] at hok; exact absurd hok (by simp)
  | ok src =>
  rw [hB] at hok
  dsimp only at hok
  cases hC : _topology_scenarios load_pu il_a r (_or_default fks DEFAULT_FILTER_KEYS) ptm
      (_or_default tks DEFAULT_TOPOLOGY_KEYS) with
  | error e => rw [hC] at hok; exact absurd hok (by simp)
  | ok scenarios =>
  rw [hC] at hok
  dsimp only at hok
  cases hD : _enrich il_a (vln_from_vll vll_v) src lim scenarios with
  | error e => rw [hD] at hok; exact absurd hok (by simp)
  | ok enriched =>
  rw [hD] at hok
  dsimp only at hok
  have hout : out =
      (enriched.mergeSort (fun p q => decide (_rank_key p ≤ _rank_key q))).map
        (fun p => _scenario_row p.1 p.2 r) := (Except.ok.inj hok).symm
  subst hout
  refine ⟨⟨r, _, _mergeSort_rank_sorted enriched, rfl⟩, ?_⟩
  intro i j hi hj hij hpass
  rcases Nat.lt_or_ge i j with hlt | hge
  · have hi2 : i < (enriched.mergeSort (fun p q => decide (_rank_key p ≤ _rank_key q))).length := by
      simpa using hi
    have hj2 : j < (enriched.mergeSort (fun p q => decide (_rank_key p ≤ _rank_key q))).length := by
      simpa using hj
    rw [List.get_map] at hpass ⊢
    have hkey := (_mergeSort_rank_sorted enriched).rel_get_of_lt
      (a := ⟨i, hi2⟩) (b := ⟨j, hj2⟩) (by exact hlt)
    have hzero := (_passes_all_iff_key _ r).mp hpass
    unfold _rank_key at hkey
    exact (_passes_all_iff_key _ r).mpr (_lex_front_le hkey hzero)
  · have heq : i = j := le_antisymm hij hge
    subst heq
    exact hpass

theorem _evaluate_ok_of_pos (sp : List (ℤ × ℝ)) (il isc : ℝ) (vc : String) (f : ℝ)
    (hil : 0 < il) (hisc : 0 < isc) (hle : isc / il ≤ 1000) :
    ∃ rpt, evaluate_ieee519_current_limits sp il isc vc f = .ok rpt := by
  obtain ⟨sel, hsel⟩ := _select_row_ok_of_le hle
  unfold evaluate_ieee519_current_limits
  rw [if_neg (by linarith), if_neg (by linarith), hsel]
  exact ⟨_, rfl⟩

theorem _run_scenario_ok_of_pos (name : String) (sp : List (ℤ × ℝ)) (il isc : ℝ)
    (hil : 0 < il) (hisc : 0 < isc) (hle : isc / il ≤ 1000) :
    ∃ s, run_scenario name sp il isc = .ok s := by
  obtain ⟨rpt, hr⟩ := _evaluate_ok_of_pos sp il isc ("120V-69kV") 0.25 hil hisc hle
  unfold run_scenario
  dsimp only
  rw [hr]
  exact ⟨_, rfl⟩

theorem _filter_scenarios_none (base : List (ℤ × ℝ)) (pname : String) (il isc : ℝ) :
    _filter_scenarios base pname il isc ["none"] = .ok [] := by
  unfold _filter_scenarios
  rw [if_pos rfl]
  rfl

theorem _thdv_loop_ok (i1 : ℝ) (src : SourceImpedanceModel) (hz : 0 < src.z1_ohm) :
    ∀ sp : List (ℤ × ℝ), ∃ x, _thdv_loop i1 src 50 sp = .ok x := by
  intro sp
  induction sp with
  | nil => exact ⟨_, rfl⟩
  | cons hd rest ih =>
    rcases hd with ⟨h, pct⟩
    obtain ⟨x, hx⟩ := ih
    unfold _thdv_loop
    by_cases hb : 2 ≤ h ∧ h ≤ 50
    · rw [if_pos hb]
      have hzm : z_mag_at_harmonic src.z1_ohm h src.freq_exp =
          .ok (src.z1_ohm * Real.rpow (h : ℝ) src.freq_exp) := by
        unfold z_mag_at_harmonic
        rw [if_neg (by omega), if_neg (by linarith)]
      rw [hzm]
      dsimp only
      rw [hx]
      exact ⟨_, rfl⟩
    · rw [if_neg hb]
      exact ⟨_, hx⟩

theorem _thdv_ok (sp : List (ℤ × ℝ)) (i1 v1 : ℝ) (src : SourceImpedanceModel) (lim : ℝ)
    (hi1 : 0 < i1) (hv1 : 0 < v1) (hz : 0 < src.z1_ohm) :
    ∃ v, thdv_from_spectrum sp i1 v1 src 50 lim = .ok v := by
  obtain ⟨⟨vh, s⟩, hx⟩ := _thdv_loop_ok i1 src hz sp
  unfold thdv_from_spectrum
  rw [if_neg (by linarith), if_neg (by linarith), hx]
  exact ⟨_, rfl⟩

theorem _enrich_ok (il v1 : ℝ) (src : SourceImpedanceModel) (lim : ℝ)
    (hi1 : 0 < il) (hv1 : 0 < v1) (hz : 0 < src.z1_ohm) :
    ∀ l : List ScenarioResult, ∃ es, _enrich il v1 src lim l = .ok es := by
  intro l
  induction l with
  | nil => exact ⟨_, rfl⟩
  | cons s rest ih =>
    obtain ⟨es, hes⟩ := ih
    obtain ⟨v, hv⟩ := _thdv_ok s.spectrum_pct_of_fund il v1 src lim hi1 hv1 hz
    unfold _enrich
    rw [hv]
    dsimp only
    rw [hes]
    exact ⟨_, rfl⟩

/-- Witness for C1: a comparison call on the 18-pulse preset alone, with no
filters, at a concrete PCC (480 V, 10 MVA, 100 A, half load) succeeds and its
output is the sorted image of an enriched scenario list. -/
theorem compare_output_ranked_witness :
    ∃ out : List ScenarioRow,
      compare_ups_topologies 0.5 100 480 10 (some ["18pulse_typical"]) (some ["none"])
        none 5.0 1.0 = .ok out ∧
      (∃ (r : ℝ) (pairs : List (ScenarioResult × VoltageDistortionResult)),
        List.Sorted (fun p q => _rank_key p ≤ _rank_key q) pairs ∧
        out = pairs.map (fun p => _scenario_row p.1 p.2 r)) := by
  obtain ⟨r0, h1, hr0, hr0le⟩ :
      ∃ r, isc_over_il_from_sc_mva 480 10 100 = .ok r ∧ 0 < r ∧ r ≤ 1000 := by
    unfold isc_over_il_from_sc_mva isc_a_from_sc_mva
    rw [if_neg (by norm_num), if_neg (by norm_num), if_neg (by norm_num)]
    refine ⟨_, rfl, ?_, ?_⟩ <;> norm_num [_SQRT3]
  obtain ⟨src0, h2, hz0⟩ : ∃ src, source_from_sc_mva 480 10 1.0 = .ok src ∧ 0 < src.z1_ohm := by
    unfold source_from_sc_mva zth_ohm_from_sc_mva
    rw [if_neg (by norm_num), if_neg (by norm_num)]
    refine ⟨_, rfl, ?_⟩
    norm_num
  obtain ⟨p18, hp⟩ : ∃ p, harmonic_presets.lookup ("18pulse_typical") = some p := by
    simp [harmonic_presets, List.lookup]
  obtain ⟨s0, hs0⟩ := _run_scenario_ok_of_pos (p18.name ++ " (no filter)")
    (load_adjust_spectrum p18.harmonic_pct_of_fund_rms 0.5 ("rectifier_like")) 100 (r0 * 100)
    (by norm_num) (mul_pos hr0 (by norm_num))
    (by
      have h100 : r0 * 100 / 100 = r0 := by ring
      rw [h100]
      exact hr0le)
  obtain ⟨g, hg⟩ : ∃ g, _one_topology 0.5 100 r0 ["none"] none ("18pulse_typical") = .ok g := by
    unfold _one_topology
    rw [hp]
    dsimp only
    rw [hs0]
    dsimp only
    rw [_filter_scenarios_none _ _ _ _]
    exact ⟨_, rfl⟩
  obtain ⟨ss, hss⟩ : ∃ ss,
      _topology_scenarios 0.5 100 r0 ["none"] none ["18pulse_typical"] = .ok ss := by
    unfold _topology_scenarios
    rw [hg]
    dsimp only
    rw [show _topology_scenarios 0.5 100 r0 ["none"] none ([] : List String) = .ok [] from rfl]
    exact ⟨_, rfl⟩
  obtain ⟨es, hes⟩ := _enrich_ok 100 (vln_from_vll 480) src0 5.0 (by norm_num)
    (by norm_num [vln_from_vll]) hz0 ss
  have hok : compare_ups_topologies 0.5 100 480 10 (some ["18pulse_typical"]) (some ["none"])
      none 5.0 1.0 =
      .ok ((es.mergeSort (fun p q => decide (_rank_key p ≤ _rank_key q))).map
        (fun p => _scenario_row p.1 p.2 r0)) := by
    unfold compare_ups_topologies
    dsimp only [_or_default]
    rw [h1]
    dsimp only
    rw [h2]
    dsimp only
    rw [hss]
    dsimp only
    rw [hes]
  exact ⟨_, hok, (compare_output_ranked 0.5 100 480 10 (some ["18pulse_typical"])
    (some ["none"]) none 5.0 1.0 _ hok).1⟩
